import Mathlib

/-!
# dbot: object transition model builder

A shallow embedding of `include/dbot/tracker/builder/object_transition_model_builder.hpp`
(`ObjectStateTrait` and `ObjectTransitionModelBuilder::build_model`) together with the
properties of the matrices it assembles.

Modelling conventions.

* `fl::Real` (a C++ `double`) is an arbitrary commutative ring `R`: scalar arithmetic is
  exact, so rounding and the IEEE special values (NaN, infinities, signed zero) are outside
  the model. The definitions run on `ℚ` or `ℤ`.
* `int` and `Eigen::Index` are `Int`, without wrap-around: `12 * part_count` leaves the range
  of a 32-bit `int` only for more than 178956970 bodies.
* A dense Eigen matrix is its run-time shape together with its coefficient function; only
  the coefficients inside the shape carry meaning.
* `build_model` runs on zero-filled storage; `build_model_on` runs the same statements on
  storage with arbitrary contents, and `spec_build` is the algorithm in the words of the
  specification.
-/

namespace dbot

/-! ## Dense matrices with run-time shape (`Eigen::Matrix`) -/

/-- Dense matrix: `rows()`, `cols()` and the coefficient accessor `coeff(r, c)`. -/
structure Mat (R : Type) where
  rows : Int
  cols : Int
  coeff : Int → Int → R

namespace Mat

variable {R : Type} [CommRing R]

/-- Freshly constructed matrix of the given shape, `Eigen::Matrix<Real, rows, cols>()`.
Eigen leaves the coefficients unspecified; they are taken to be zero here, and `build_model`
overwrites every coefficient inside the shape before it is read. -/
def fresh (rows cols : Int) : Mat R :=
  { rows := rows, cols := cols, coeff := fun _ _ => 0 }

/-- Predicate `inBlock startRow startCol blockRows blockCols r c`: the position `(r, c)` lies in
the block of shape `blockRows x blockCols` whose top-left corner is `(startRow, startCol)`. -/
def inBlock (startRow startCol blockRows blockCols r c : Int) : Prop :=
  startRow ≤ r ∧ r < startRow + blockRows ∧ startCol ≤ c ∧ c < startCol + blockCols

instance (startRow startCol blockRows blockCols r c : Int) :
    Decidable (inBlock startRow startCol blockRows blockCols r c) := by
  unfold inBlock
  exact inferInstance

/-- Expression `Identity(rows, cols)`: one on the diagonal, zero elsewhere. -/
def Identity (rows cols : Int) : Mat R :=
  { rows := rows, cols := cols, coeff := fun r c => if r = c then 1 else 0 }

/-- Expression `Zero(rows, cols)`. -/
def Zero (rows cols : Int) : Mat R :=
  { rows := rows, cols := cols, coeff := fun _ _ => 0 }

/-- Expression `M * s`: every coefficient multiplied by the scalar `s`. -/
def scale (M : Mat R) (s : R) : Mat R :=
  { M with coeff := fun r c => M.coeff r c * s }

/-- Read view `M.block(startRow, startCol, blockRows, blockCols)`. -/
def block (M : Mat R) (startRow startCol blockRows blockCols : Int) : Mat R :=
  { rows := blockRows, cols := blockCols,
    coeff := fun r c => M.coeff (startRow + r) (startCol + c) }

/-- Read view `M.topRows(n)`. -/
def topRows (M : Mat R) (n : Int) : Mat R :=
  M.block 0 0 n M.cols

/-- Assignment `M.block(startRow, startCol, blockRows, blockCols) = src`: the coefficients of
the block are replaced by those of `src`, every other coefficient is kept. -/
def assignBlock (M : Mat R) (startRow startCol blockRows blockCols : Int) (src : Mat R) :
    Mat R :=
  { M with
    coeff := fun r c =>
      if inBlock startRow startCol blockRows blockCols r c then
        src.coeff (r - startRow) (c - startCol)
      else M.coeff r c }

/-- Statement `M.setIdentity()`: the whole matrix becomes the identity of its shape. -/
def setIdentity (M : Mat R) : Mat R :=
  M.assignBlock 0 0 M.rows M.cols (Identity M.rows M.cols)

/-- Statement `M.setZero()`. -/
def setZero (M : Mat R) : Mat R :=
  M.assignBlock 0 0 M.rows M.cols (Zero M.rows M.cols)

/-- Statement `M.topRightCorner(cRows, cCols).setIdentity()`; the corner is the block
`block(0, cols() - cCols, cRows, cCols)`. -/
def topRightCorner_setIdentity (M : Mat R) (cRows cCols : Int) : Mat R :=
  M.assignBlock 0 (M.cols - cCols) cRows cCols (Identity cRows cCols)

/-- Statement `M.rightCols(n) *= s`; the view is `block(0, cols() - n, rows(), n)` and each of
its coefficients is multiplied by `s` in place. -/
def rightCols_mulAssign (M : Mat R) (n : Int) (s : R) : Mat R :=
  M.assignBlock 0 (M.cols - n) M.rows n ((M.block 0 (M.cols - n) M.rows n).scale s)

/-- Statement `M.bottomRows(n) = src`; the view is `block(rows() - n, 0, n, cols())`. -/
def bottomRows_assign (M : Mat R) (n : Int) (src : Mat R) : Mat R :=
  M.assignBlock (M.rows - n) 0 n M.cols src

/-- Matrix product `M * N` (coefficient-wise definition of the dense product; the inner
dimension is `M.cols()`). -/
def mul (M N : Mat R) : Mat R :=
  { rows := M.rows, cols := N.cols,
    coeff := fun r c =>
      Finset.sum (Finset.range M.cols.toNat) fun k => M.coeff r (k : Int) * N.coeff (k : Int) c }

/-- Matrix sum `M + N`. -/
def add (M N : Mat R) : Mat R :=
  { rows := M.rows, cols := M.cols, coeff := fun r c => M.coeff r c + N.coeff r c }

end Mat

/-! ## `ObjectStateTrait` -/

/-- Constant `Eigen::Dynamic`, the marker of a size that is only known at run time. -/
def Dynamic : Int := -1

/-- Enumerator `ObjectStateTrait<State>::NoiseDim` as a function of `State::SizeAtCompileTime`;
the quotient is C++ integer division (truncation toward zero). -/
def NoiseDim (SizeAtCompileTime : Int) : Int :=
  if SizeAtCompileTime ≠ -1 then Int.tdiv SizeAtCompileTime 2 else Dynamic

/-! ## `fl::LinearStateTransitionModel` (the `DerivedModel`) -/

/-- The linear model object: its three dimensions and its three matrices. -/
structure DerivedModel (R : Type) where
  state_dim : Int
  noise_dim : Int
  input_dim : Int
  dynamics_matrix : Mat R
  noise_matrix : Mat R
  input_matrix : Mat R

namespace DerivedModel

variable {R : Type} [CommRing R]

/-- Modelled from the spec: the constructor `DerivedModel(state_dim, noise_dim, input_dim)` of
the filtering library is not part of the sources. Section 4.2 step 2 and section 3 give the
shapes `state_dim x state_dim`, `state_dim x noise_dim` and `state_dim x input_dim`, allocated
zero-filled. -/
def create (state_dim noise_dim input_dim : Int) : DerivedModel R :=
  { state_dim := state_dim, noise_dim := noise_dim, input_dim := input_dim,
    dynamics_matrix := Mat.fresh state_dim state_dim,
    noise_matrix := Mat.fresh state_dim noise_dim,
    input_matrix := Mat.fresh state_dim input_dim }

/-- Modelled from the spec: `create_dynamics_matrix()` hands out a matrix of the shape of the
dynamics matrix. -/
def create_dynamics_matrix (m : DerivedModel R) : Mat R := m.dynamics_matrix

/-- Modelled from the spec: `create_noise_matrix()` hands out a matrix of the shape of the
noise matrix. -/
def create_noise_matrix (m : DerivedModel R) : Mat R := m.noise_matrix

/-- Modelled from the spec: `create_input_matrix()` hands out a matrix of the shape of the
input matrix. -/
def create_input_matrix (m : DerivedModel R) : Mat R := m.input_matrix

/-- Modelled from the spec: the transition function of the linear model (section 2),
`next_state = A * state + B * noise + C * input`. -/
def state (m : DerivedModel R) (prev_state noise input : Mat R) : Mat R :=
  ((m.dynamics_matrix.mul prev_state).add (m.noise_matrix.mul noise)).add
    (m.input_matrix.mul input)

end DerivedModel

/-! ## `ObjectTransitionModelBuilder` -/

/-- Record `ObjectTransitionModelBuilder::Parameters`. -/
structure Parameters (R : Type) where
  linear_sigma : R
  angular_sigma : R
  velocity_factor : R
  part_count : Int

section Builder

variable {R : Type} [CommRing R]

/-- Local `total_state_dim` of `build_model`. -/
def total_state_dim (param_ : Parameters R) : Int :=
  param_.part_count * 12

/-- Local `total_noise_dim` of `build_model` (C++ integer division). -/
def total_noise_dim (param_ : Parameters R) : Int :=
  Int.tdiv (total_state_dim param_) 2

/-- Local `part_A` of `build_model` after its three statements: `setIdentity()`,
`topRightCorner(6, 6).setIdentity()`, `rightCols(6) *= velocity_factor`. -/
def part_A (param_ : Parameters R) : Mat R :=
  (((Mat.fresh 12 12).setIdentity).topRightCorner_setIdentity 6 6).rightCols_mulAssign 6
    param_.velocity_factor

/-- Local `part_B` of `build_model` after its four statements: `setZero()`, the two 3x3 block
assignments and `bottomRows(6) = topRows(6)`. -/
def part_B (param_ : Parameters R) : Mat R :=
  let B0 : Mat R := (Mat.fresh 12 6).setZero
  let B1 := B0.assignBlock 0 0 3 3 ((Mat.Identity 3 3).scale param_.linear_sigma)
  let B2 := B1.assignBlock 3 3 3 3 ((Mat.Identity 3 3).scale param_.angular_sigma)
  B2.bottomRows_assign 6 (B2.topRows 6)

/-- Body of the tiling loop for the body index `i`, acting on the pair `(A, B)`. -/
def tileStep (pA pB : Mat R) (AB : Mat R × Mat R) (i : Nat) : Mat R × Mat R :=
  (AB.1.assignBlock ((i : Int) * 12) ((i : Int) * 12) 12 12 pA,
   AB.2.assignBlock ((i : Int) * 12) ((i : Int) * 6) 12 6 pB)

/-- The loop `for (int i = 0; i < part_count; ++i)`: the body runs for
`i = 0, 1, ..., part_count - 1` in this order, and not at all when `part_count <= 0`. -/
def tileLoop (part_count : Int) (pA pB : Mat R) (AB : Mat R × Mat R) : Mat R × Mat R :=
  (List.range part_count.toNat).foldl (tileStep pA pB) AB

/-- Method `ObjectTransitionModelBuilder::build_model`. -/
def build_model (param_ : Parameters R) : DerivedModel R :=
  let model : DerivedModel R :=
    DerivedModel.create (total_state_dim param_) (total_noise_dim param_) 1
  let A := model.create_dynamics_matrix
  let B := model.create_noise_matrix
  let C := model.create_input_matrix
  let A := A.setIdentity
  let B := B.setZero
  let C := C.setZero
  let AB := tileLoop param_.part_count (part_A param_) (part_B param_) (A, B)
  { model with dynamics_matrix := AB.1, noise_matrix := AB.2, input_matrix := C }

end Builder

/-! ## `build_model` on storage that is not zero-filled -/

/-- What the storage of the five matrices of `build_model` holds before the first statement
writes to it: Eigen leaves the coefficients of the default-constructed `part_A` and `part_B`
unset, and the sources do not fix what the library hands out for `A`, `B` and `C`. -/
structure Storage (R : Type) where
  A : Int → Int → R
  B : Int → Int → R
  C : Int → Int → R
  part_A : Int → Int → R
  part_B : Int → Int → R

section BuilderOn

variable {R : Type} [CommRing R]

/-- Local `part_A` of `build_model`, its three statements run on a 12x12 matrix that holds
`held`. -/
def part_A_on (held : Int → Int → R) (param_ : Parameters R) : Mat R :=
  let part_A : Mat R := { rows := 12, cols := 12, coeff := held }
  ((part_A.setIdentity).topRightCorner_setIdentity 6 6).rightCols_mulAssign 6
    param_.velocity_factor

/-- Local `part_B` of `build_model`, its four statements run on a 12x6 matrix that holds
`held`. -/
def part_B_on (held : Int → Int → R) (param_ : Parameters R) : Mat R :=
  let part_B : Mat R := { rows := 12, cols := 6, coeff := held }
  let B0 := part_B.setZero
  let B1 := B0.assignBlock 0 0 3 3 ((Mat.Identity 3 3).scale param_.linear_sigma)
  let B2 := B1.assignBlock 3 3 3 3 ((Mat.Identity 3 3).scale param_.angular_sigma)
  B2.bottomRows_assign 6 (B2.topRows 6)

/-- Method `ObjectTransitionModelBuilder::build_model`, statement by statement, run on
storage that holds `mem`. `build_model` is the case of zero-filled storage. -/
def build_model_on (mem : Storage R) (param_ : Parameters R) : DerivedModel R :=
  let total_state_dim : Int := param_.part_count * 12
  let total_noise_dim : Int := Int.tdiv total_state_dim 2
  let A : Mat R := { rows := total_state_dim, cols := total_state_dim, coeff := mem.A }
  let B : Mat R := { rows := total_state_dim, cols := total_noise_dim, coeff := mem.B }
  let C : Mat R := { rows := total_state_dim, cols := 1, coeff := mem.C }
  let A := A.setIdentity
  let B := B.setZero
  let C := C.setZero
  let AB := tileLoop param_.part_count (part_A_on mem.part_A param_)
    (part_B_on mem.part_B param_) (A, B)
  { state_dim := total_state_dim, noise_dim := total_noise_dim, input_dim := 1,
    dynamics_matrix := AB.1, noise_matrix := AB.2, input_matrix := C }

end BuilderOn

/-! ## The assembly algorithm as the specification words it (section 4.2, steps 1 to 5) -/

section SpecAlgorithm

variable {R : Type} [CommRing R]

/-- Step 3 of the specified algorithm: start as the 12x12 identity, set the top-right 6x6
corner to the identity, then multiply every entry of the rightmost 6 columns by
`velocity_factor`. -/
def spec_part_dynamics (velocity_factor : R) : Mat R :=
  let T0 : Mat R := Mat.Identity 12 12
  let T1 := T0.assignBlock 0 6 6 6 (Mat.Identity 6 6)
  { T1 with
    coeff := fun r c => if 6 ≤ c ∧ c < 12 then T1.coeff r c * velocity_factor else T1.coeff r c }

/-- Step 4 of the specified algorithm: zero-filled 12x6 matrix, rows 0..2 and columns 0..2 set
to `linear_sigma` times the identity, rows 3..5 and columns 3..5 set to `angular_sigma` times
the identity, then rows 0..5 copied into rows 6..11. -/
def spec_part_noise (linear_sigma angular_sigma : R) : Mat R :=
  let T0 : Mat R := Mat.Zero 12 6
  let T1 := T0.assignBlock 0 0 3 3 ((Mat.Identity 3 3).scale linear_sigma)
  let T2 := T1.assignBlock 3 3 3 3 ((Mat.Identity 3 3).scale angular_sigma)
  { T2 with coeff := fun r c => if 6 ≤ r ∧ r < 12 then T2.coeff (r - 6) c else T2.coeff r c }

/-- Step 5 of the specified algorithm for one body index `i`: the dynamics template goes to
the block `(12 i, 12 i)` of `A`, the noise template to the block `(12 i, 6 i)` of `B`. -/
def spec_place (T U : Mat R) (AB : Mat R × Mat R) (i : Nat) : Mat R × Mat R :=
  (AB.1.assignBlock (12 * (i : Int)) (12 * (i : Int)) 12 12 T,
   AB.2.assignBlock (12 * (i : Int)) (6 * (i : Int)) 12 6 U)

/-- Steps 1 to 5 of the specified algorithm: the dimensions, three zero-filled matrices of
these sizes, the two templates, and one placement per body index in `[0, part_count)`. -/
def spec_build (param_ : Parameters R) : DerivedModel R :=
  let total_state_dim : Int := 12 * param_.part_count
  let total_noise_dim : Int := total_state_dim / 2
  let A : Mat R := Mat.Zero total_state_dim total_state_dim
  let B : Mat R := Mat.Zero total_state_dim total_noise_dim
  let C : Mat R := Mat.Zero total_state_dim 1
  let T := spec_part_dynamics param_.velocity_factor
  let U := spec_part_noise param_.linear_sigma param_.angular_sigma
  let AB := (List.range param_.part_count.toNat).foldl (spec_place T U) (A, B)
  { state_dim := total_state_dim, noise_dim := total_noise_dim, input_dim := 1,
    dynamics_matrix := AB.1, noise_matrix := AB.2, input_matrix := C }

end SpecAlgorithm

/-! ## Repeated noise-free transition -/

/-- The noise-free transition `x -> A * x` of a model, applied `t` times. -/
def noise_free_steps {R : Type} [CommRing R] (m : DerivedModel R) (t : Nat) (x : Mat R) :
    Mat R :=
  (fun y => m.dynamics_matrix.mul y)^[t] x

/-! ## Auxiliary lemmas -/

section Lemmas

variable {R : Type}

/-- One more round of the tiling loop is one more application of its body. -/
theorem tileFold_succ (pA pB : Mat R) (AB : Mat R × Mat R) (k : Nat) :
    (List.range (k + 1)).foldl (tileStep pA pB) AB =
      tileStep pA pB ((List.range k).foldl (tileStep pA pB) AB) k := by
  rw [List.range_succ, List.foldl_append]
  rfl

/-- The tiling loop keeps the shapes of both matrices. -/
theorem tileFold_shape (pA pB : Mat R) (AB : Mat R × Mat R) (k : Nat) :
    ((List.range k).foldl (tileStep pA pB) AB).1.rows = AB.1.rows ∧
    ((List.range k).foldl (tileStep pA pB) AB).1.cols = AB.1.cols ∧
    ((List.range k).foldl (tileStep pA pB) AB).2.rows = AB.2.rows ∧
    ((List.range k).foldl (tileStep pA pB) AB).2.cols = AB.2.cols := by
  induction k with
  | zero => simp
  | succ k ih =>
    rw [tileFold_succ]
    simpa [tileStep, Mat.assignBlock] using ih

/-- Coefficients of `A` after `k` rounds of the tiling loop. -/
theorem tileFold_fst_coeff (pA pB : Mat R) (AB : Mat R × Mat R) (k : Nat) (r c : Int) :
    ((List.range k).foldl (tileStep pA pB) AB).1.coeff r c =
      if 0 ≤ r ∧ 0 ≤ c ∧ r / 12 = c / 12 ∧ r / 12 < (k : Int) then pA.coeff (r % 12) (c % 12)
      else AB.1.coeff r c := by
  induction k with
  | zero =>
    have h : ¬ (0 ≤ r ∧ 0 ≤ c ∧ r / 12 = c / 12 ∧ r / 12 < ((0 : Nat) : Int)) := by omega
    rw [List.range_zero, List.foldl_nil, if_neg h]
  | succ k ih =>
    rw [tileFold_succ]
    simp only [tileStep, Mat.assignBlock, Mat.inBlock]
    rw [ih]
    by_cases hb : (k : Int) * 12 ≤ r ∧ r < (k : Int) * 12 + 12 ∧ (k : Int) * 12 ≤ c ∧
        c < (k : Int) * 12 + 12
    · have h1 : 0 ≤ r ∧ 0 ≤ c ∧ r / 12 = c / 12 ∧ r / 12 < ((k + 1 : Nat) : Int) := by omega
      have h2 : r - (k : Int) * 12 = r % 12 := by omega
      have h3 : c - (k : Int) * 12 = c % 12 := by omega
      rw [if_pos hb, if_pos h1, h2, h3]
    · rw [if_neg hb]
      by_cases h1 : 0 ≤ r ∧ 0 ≤ c ∧ r / 12 = c / 12 ∧ r / 12 < (k : Int)
      · have h2 : 0 ≤ r ∧ 0 ≤ c ∧ r / 12 = c / 12 ∧ r / 12 < ((k + 1 : Nat) : Int) := by omega
        rw [if_pos h1, if_pos h2]
      · have h2 : ¬ (0 ≤ r ∧ 0 ≤ c ∧ r / 12 = c / 12 ∧ r / 12 < ((k + 1 : Nat) : Int)) := by
          omega
        rw [if_neg h1, if_neg h2]

/-- Coefficients of `B` after `k` rounds of the tiling loop. -/
theorem tileFold_snd_coeff (pA pB : Mat R) (AB : Mat R × Mat R) (k : Nat) (r c : Int) :
    ((List.range k).foldl (tileStep pA pB) AB).2.coeff r c =
      if 0 ≤ r ∧ 0 ≤ c ∧ r / 12 = c / 6 ∧ r / 12 < (k : Int) then pB.coeff (r % 12) (c % 6)
      else AB.2.coeff r c := by
  induction k with
  | zero =>
    have h : ¬ (0 ≤ r ∧ 0 ≤ c ∧ r / 12 = c / 6 ∧ r / 12 < ((0 : Nat) : Int)) := by omega
    rw [List.range_zero, List.foldl_nil, if_neg h]
  | succ k ih =>
    rw [tileFold_succ]
    simp only [tileStep, Mat.assignBlock, Mat.inBlock]
    rw [ih]
    by_cases hb : (k : Int) * 12 ≤ r ∧ r < (k : Int) * 12 + 12 ∧ (k : Int) * 6 ≤ c ∧
        c < (k : Int) * 6 + 6
    · have h1 : 0 ≤ r ∧ 0 ≤ c ∧ r / 12 = c / 6 ∧ r / 12 < ((k + 1 : Nat) : Int) := by omega
      have h2 : r - (k : Int) * 12 = r % 12 := by omega
      have h3 : c - (k : Int) * 6 = c % 6 := by omega
      rw [if_pos hb, if_pos h1, h2, h3]
    · rw [if_neg hb]
      by_cases h1 : 0 ≤ r ∧ 0 ≤ c ∧ r / 12 = c / 6 ∧ r / 12 < (k : Int)
      · have h2 : 0 ≤ r ∧ 0 ≤ c ∧ r / 12 = c / 6 ∧ r / 12 < ((k + 1 : Nat) : Int) := by omega
        rw [if_pos h1, if_pos h2]
      · have h2 : ¬ (0 ≤ r ∧ 0 ≤ c ∧ r / 12 = c / 6 ∧ r / 12 < ((k + 1 : Nat) : Int)) := by
          omega
        rw [if_neg h1, if_neg h2]

/-- The noise matrix produced by the tiling loop does not depend on the dynamics template. -/
theorem tileFold_snd_indep (pA pA2 pB : Mat R) (AB AB2 : Mat R × Mat R) (h : AB.2 = AB2.2)
    (k : Nat) :
    ((List.range k).foldl (tileStep pA pB) AB).2 =
      ((List.range k).foldl (tileStep pA2 pB) AB2).2 := by
  induction k with
  | zero => simpa using h
  | succ k ih =>
    rw [tileFold_succ, tileFold_succ]
    simp only [tileStep]
    rw [ih]

/-- The dynamics matrix produced by the tiling loop does not depend on the noise template. -/
theorem tileFold_fst_indep (pA pB pB2 : Mat R) (AB AB2 : Mat R × Mat R) (h : AB.1 = AB2.1)
    (k : Nat) :
    ((List.range k).foldl (tileStep pA pB) AB).1 =
      ((List.range k).foldl (tileStep pA pB2) AB2).1 := by
  induction k with
  | zero => simpa using h
  | succ k ih =>
    rw [tileFold_succ, tileFold_succ]
    simp only [tileStep]
    rw [ih]

/-- The specified placement of the templates is the body of the tiling loop. -/
theorem spec_place_eq (T U : Mat R) : spec_place T U = tileStep T U := by
  funext AB i
  simp only [spec_place, tileStep, mul_comm]

/-- For up to 178956970 bodies `12 * part_count` lies in the range of a 32-bit `int`, so the
exact product below is the value the C++ multiplication computes. -/
theorem total_state_dim_int_range (p : Parameters R)
    (hlo : -178956970 ≤ p.part_count) (hhi : p.part_count ≤ 178956970) :
    -2147483648 ≤ total_state_dim p ∧ total_state_dim p ≤ 2147483647 := by
  unfold total_state_dim
  omega

/-- The quotient in `total_noise_dim` is exact. -/
theorem total_noise_dim_eq (p : Parameters R) : total_noise_dim p = p.part_count * 6 := by
  unfold total_noise_dim total_state_dim
  have h : p.part_count * 12 = p.part_count * 6 * 2 := by ring
  rw [h, Int.mul_tdiv_cancel _ (by decide)]

variable [CommRing R]

/-- Coefficients of the 12x12 template `part_A`. -/
theorem part_A_coeff (p : Parameters R) (r c : Int)
    (hr0 : 0 ≤ r) (hr : r < 12) (hc0 : 0 ≤ c) (hc : c < 12) :
    (part_A p).coeff r c =
      if r = c then (if c < 6 then 1 else p.velocity_factor)
      else if c = r + 6 then p.velocity_factor else 0 := by
  simp only [part_A, Mat.rightCols_mulAssign, Mat.topRightCorner_setIdentity, Mat.setIdentity,
    Mat.assignBlock, Mat.inBlock, Mat.fresh, Mat.Identity, Mat.scale, Mat.block]
  split_ifs <;> first | omega | simp

/-- Coefficients of the 12x6 template `part_B`. -/
theorem part_B_coeff (p : Parameters R) (r c : Int)
    (hr0 : 0 ≤ r) (hr : r < 12) (hc0 : 0 ≤ c) (hc : c < 6) :
    (part_B p).coeff r c =
      if r = c ∨ r = c + 6 then (if c < 3 then p.linear_sigma else p.angular_sigma)
      else 0 := by
  simp only [part_B, Mat.bottomRows_assign, Mat.topRows, Mat.setZero,
    Mat.assignBlock, Mat.inBlock, Mat.fresh, Mat.Identity, Mat.Zero, Mat.scale, Mat.block]
  split_ifs <;> first | omega | simp

theorem build_model_dynamics (p : Parameters R) :
    (build_model p).dynamics_matrix =
      ((List.range p.part_count.toNat).foldl (tileStep (part_A p) (part_B p))
        ((Mat.fresh (total_state_dim p) (total_state_dim p)).setIdentity,
         (Mat.fresh (total_state_dim p) (total_noise_dim p)).setZero)).1 := rfl

theorem build_model_noise (p : Parameters R) :
    (build_model p).noise_matrix =
      ((List.range p.part_count.toNat).foldl (tileStep (part_A p) (part_B p))
        ((Mat.fresh (total_state_dim p) (total_state_dim p)).setIdentity,
         (Mat.fresh (total_state_dim p) (total_noise_dim p)).setZero)).2 := rfl

theorem build_model_input (p : Parameters R) :
    (build_model p).input_matrix = (Mat.fresh (total_state_dim p) 1).setZero := rfl

/-- Shapes of the three matrices of the built model. -/
theorem build_model_shapes (p : Parameters R) :
    (build_model p).dynamics_matrix.rows = total_state_dim p ∧
    (build_model p).dynamics_matrix.cols = total_state_dim p ∧
    (build_model p).noise_matrix.rows = total_state_dim p ∧
    (build_model p).noise_matrix.cols = total_noise_dim p ∧
    (build_model p).input_matrix.rows = total_state_dim p ∧
    (build_model p).input_matrix.cols = 1 := by
  rw [build_model_dynamics, build_model_noise, build_model_input]
  obtain ⟨h1, h2, h3, h4⟩ := tileFold_shape (part_A p) (part_B p)
    ((Mat.fresh (total_state_dim p) (total_state_dim p)).setIdentity,
     (Mat.fresh (total_state_dim p) (total_noise_dim p) : Mat R).setZero) p.part_count.toNat
  exact ⟨h1, h2, h3, h4, rfl, rfl⟩

/-- Entry of the dynamics matrix at row `r` of body `i` and column `c` of body `j`. -/
theorem build_model_A_entry (p : Parameters R) (i j r c : Nat)
    (hi : (i : Int) < p.part_count) (hj : (j : Int) < p.part_count)
    (hr : r < 12) (hc : c < 12) :
    (build_model p).dynamics_matrix.coeff (12 * (i : Int) + r) (12 * (j : Int) + c) =
      if i = j then
        (if r = c then (if c < 6 then 1 else p.velocity_factor)
         else if c = r + 6 then p.velocity_factor else 0)
      else 0 := by
  rw [build_model_dynamics, tileFold_fst_coeff]
  by_cases hij : i = j
  · subst hij
    have h1 : 0 ≤ 12 * (i : Int) + r ∧ 0 ≤ 12 * (i : Int) + c ∧
        (12 * (i : Int) + r) / 12 = (12 * (i : Int) + c) / 12 ∧
        (12 * (i : Int) + r) / 12 < (p.part_count.toNat : Int) := by omega
    have h2 : (12 * (i : Int) + r) % 12 = (r : Int) := by omega
    have h3 : (12 * (i : Int) + c) % 12 = (c : Int) := by omega
    rw [if_pos h1, h2, h3, part_A_coeff p r c (by omega) (by omega) (by omega) (by omega)]
    simp only [if_true]
    have e1 : ((r : Int) = (c : Int)) ↔ r = c := by omega
    have e2 : ((c : Int) < 6) ↔ c < 6 := by omega
    have e3 : ((c : Int) = (r : Int) + 6) ↔ c = r + 6 := by omega
    simp only [e1, e2, e3]
  · have h1 : ¬ (0 ≤ 12 * (i : Int) + r ∧ 0 ≤ 12 * (j : Int) + c ∧
        (12 * (i : Int) + r) / 12 = (12 * (j : Int) + c) / 12 ∧
        (12 * (i : Int) + r) / 12 < (p.part_count.toNat : Int)) := by omega
    have h2 : ¬ (12 * (i : Int) + r - 0 = 12 * (j : Int) + c - 0) := by omega
    rw [if_neg h1, if_neg hij]
    simp only [Mat.setIdentity, Mat.assignBlock, Mat.Identity, Mat.fresh, if_neg h2, ite_self]

/-- Entry of the noise matrix at row `r` of body `i` and noise column `c` of body `j`. -/
theorem build_model_B_entry (p : Parameters R) (i j r c : Nat)
    (hi : (i : Int) < p.part_count) (hj : (j : Int) < p.part_count)
    (hr : r < 12) (hc : c < 6) :
    (build_model p).noise_matrix.coeff (12 * (i : Int) + r) (6 * (j : Int) + c) =
      if i = j then
        (if r = c ∨ r = c + 6 then (if c < 3 then p.linear_sigma else p.angular_sigma)
         else 0)
      else 0 := by
  rw [build_model_noise, tileFold_snd_coeff]
  by_cases hij : i = j
  · subst hij
    have h1 : 0 ≤ 12 * (i : Int) + r ∧ 0 ≤ 6 * (i : Int) + c ∧
        (12 * (i : Int) + r) / 12 = (6 * (i : Int) + c) / 6 ∧
        (12 * (i : Int) + r) / 12 < (p.part_count.toNat : Int) := by omega
    have h2 : (12 * (i : Int) + r) % 12 = (r : Int) := by omega
    have h3 : (6 * (i : Int) + c) % 6 = (c : Int) := by omega
    rw [if_pos h1, h2, h3, part_B_coeff p r c (by omega) (by omega) (by omega) (by omega)]
    simp only [if_true]
    have e1 : ((r : Int) = (c : Int) ∨ (r : Int) = (c : Int) + 6) ↔ (r = c ∨ r = c + 6) := by
      omega
    have e2 : ((c : Int) < 3) ↔ c < 3 := by omega
    simp only [e1, e2]
  · have h1 : ¬ (0 ≤ 12 * (i : Int) + r ∧ 0 ≤ 6 * (j : Int) + c ∧
        (12 * (i : Int) + r) / 12 = (6 * (j : Int) + c) / 6 ∧
        (12 * (i : Int) + r) / 12 < (p.part_count.toNat : Int)) := by omega
    rw [if_neg h1, if_neg hij]
    simp only [Mat.setZero, Mat.assignBlock, Mat.Zero, Mat.fresh, ite_self]

/-- A sum over a range whose only non-zero coefficient sits at index `a`. -/
theorem sum_mul_single (N a : Nat) (ha : a < N) (s : R) (f g : Nat → R)
    (hf : ∀ j, j < N → f j = if j = a then s else 0) :
    Finset.sum (Finset.range N) (fun j => f j * g j) = s * g a := by
  rw [Finset.sum_congr rfl (fun j hj => by
    rw [hf j (Finset.mem_range.mp hj), ite_mul, zero_mul])]
  rw [Finset.sum_ite_eq']
  simp [ha]

/-- A sum over a range whose only non-zero coefficients sit at the indices `a` and `b`. -/
theorem sum_mul_pair (N a b : Nat) (ha : a < N) (hb : b < N) (s t : R) (f g : Nat → R)
    (hf : ∀ j, j < N → f j = (if j = a then s else 0) + (if j = b then t else 0)) :
    Finset.sum (Finset.range N) (fun j => f j * g j) = s * g a + t * g b := by
  rw [Finset.sum_congr rfl (fun j hj => by
    rw [hf j (Finset.mem_range.mp hj), add_mul, ite_mul, ite_mul, zero_mul])]
  rw [Finset.sum_add_distrib, Finset.sum_ite_eq', Finset.sum_ite_eq']
  simp [ha, hb]

/-- Row `12 i + r` of the dynamics matrix, read along all of its columns. -/
theorem build_model_A_row (p : Parameters R) (i r j : Nat)
    (hi : (i : Int) < p.part_count) (hr : r < 12) (hj : (j : Int) < 12 * p.part_count) :
    (build_model p).dynamics_matrix.coeff (12 * (i : Int) + r) (j : Int) =
      (if j = 12 * i + r then (if r < 6 then 1 else p.velocity_factor) else 0) +
      (if j = 12 * i + r + 6 then (if r < 6 then p.velocity_factor else 0) else 0) := by
  have hj2 : (j : Int) = 12 * ((j / 12 : Nat) : Int) + ((j % 12 : Nat) : Int) := by omega
  rw [hj2, build_model_A_entry p i (j / 12) r (j % 12) hi (by omega) hr (by omega)]
  split_ifs <;> first | omega | simp

/-- Row `12 i + r` of the noise matrix, read along all of its columns. -/
theorem build_model_B_row (p : Parameters R) (i r j : Nat)
    (hi : (i : Int) < p.part_count) (hr : r < 12) (hj : (j : Int) < 6 * p.part_count) :
    (build_model p).noise_matrix.coeff (12 * (i : Int) + r) (j : Int) =
      if j = 6 * i + r % 6 then (if r % 6 < 3 then p.linear_sigma else p.angular_sigma)
      else 0 := by
  have hj2 : (j : Int) = 6 * ((j / 6 : Nat) : Int) + ((j % 6 : Nat) : Int) := by omega
  rw [hj2, build_model_B_entry p i (j / 6) r (j % 6) hi (by omega) hr (by omega)]
  split_ifs <;> first | omega | rfl

/-- Shapes of the built matrices in terms of `part_count`. -/
theorem build_model_dims (p : Parameters R) :
    (build_model p).dynamics_matrix.rows = 12 * p.part_count ∧
    (build_model p).dynamics_matrix.cols = 12 * p.part_count ∧
    (build_model p).noise_matrix.rows = 12 * p.part_count ∧
    (build_model p).noise_matrix.cols = 6 * p.part_count ∧
    (build_model p).input_matrix.rows = 12 * p.part_count ∧
    (build_model p).input_matrix.cols = 1 := by
  obtain ⟨h1, h2, h3, h4, h5, h6⟩ := build_model_shapes p
  rw [total_noise_dim_eq] at h4
  unfold total_state_dim at h1 h2 h3 h5
  exact ⟨by omega, by omega, by omega, by omega, by omega, h6⟩

/-- Inside its shape, a matrix is the identity after `setIdentity()`, whatever it held. -/
theorem setIdentity_coeff_in (M : Mat R) (r c : Int) (hr0 : 0 ≤ r) (hr : r < M.rows)
    (hc0 : 0 ≤ c) (hc : c < M.cols) :
    (M.setIdentity).coeff r c = if r = c then 1 else 0 := by
  have hb : Mat.inBlock 0 0 M.rows M.cols r c := by
    unfold Mat.inBlock
    omega
  simp only [Mat.setIdentity, Mat.assignBlock, Mat.Identity, if_pos hb, sub_zero]

/-- Inside its shape, a matrix is zero after `setZero()`, whatever it held. -/
theorem setZero_coeff_in (M : Mat R) (r c : Int) (hr0 : 0 ≤ r) (hr : r < M.rows)
    (hc0 : 0 ≤ c) (hc : c < M.cols) :
    (M.setZero).coeff r c = 0 := by
  have hb : Mat.inBlock 0 0 M.rows M.cols r c := by
    unfold Mat.inBlock
    omega
  simp only [Mat.setZero, Mat.assignBlock, Mat.Zero, if_pos hb]

/-- Coefficients of the template `part_A`, whatever its storage held. -/
theorem part_A_on_coeff (held : Int → Int → R) (p : Parameters R) (r c : Int)
    (hr0 : 0 ≤ r) (hr : r < 12) (hc0 : 0 ≤ c) (hc : c < 12) :
    (part_A_on held p).coeff r c =
      if r = c then (if c < 6 then 1 else p.velocity_factor)
      else if c = r + 6 then p.velocity_factor else 0 := by
  simp only [part_A_on, Mat.rightCols_mulAssign, Mat.topRightCorner_setIdentity,
    Mat.setIdentity, Mat.assignBlock, Mat.inBlock, Mat.Identity, Mat.scale, Mat.block]
  split_ifs <;> first | omega | simp

/-- Coefficients of the template `part_B`, whatever its storage held. -/
theorem part_B_on_coeff (held : Int → Int → R) (p : Parameters R) (r c : Int)
    (hr0 : 0 ≤ r) (hr : r < 12) (hc0 : 0 ≤ c) (hc : c < 6) :
    (part_B_on held p).coeff r c =
      if r = c ∨ r = c + 6 then (if c < 3 then p.linear_sigma else p.angular_sigma)
      else 0 := by
  simp only [part_B_on, Mat.bottomRows_assign, Mat.topRows, Mat.setZero,
    Mat.assignBlock, Mat.inBlock, Mat.Identity, Mat.Zero, Mat.scale, Mat.block]
  split_ifs <;> first | omega | simp

theorem build_model_on_dynamics (mem : Storage R) (p : Parameters R) :
    (build_model_on mem p).dynamics_matrix =
      ((List.range p.part_count.toNat).foldl
        (tileStep (part_A_on mem.part_A p) (part_B_on mem.part_B p))
        ((⟨p.part_count * 12, p.part_count * 12, mem.A⟩ : Mat R).setIdentity,
         (⟨p.part_count * 12, Int.tdiv (p.part_count * 12) 2, mem.B⟩ : Mat R).setZero)).1 :=
  rfl

theorem build_model_on_noise (mem : Storage R) (p : Parameters R) :
    (build_model_on mem p).noise_matrix =
      ((List.range p.part_count.toNat).foldl
        (tileStep (part_A_on mem.part_A p) (part_B_on mem.part_B p))
        ((⟨p.part_count * 12, p.part_count * 12, mem.A⟩ : Mat R).setIdentity,
         (⟨p.part_count * 12, Int.tdiv (p.part_count * 12) 2, mem.B⟩ : Mat R).setZero)).2 :=
  rfl

theorem build_model_on_input (mem : Storage R) (p : Parameters R) :
    (build_model_on mem p).input_matrix =
      (⟨p.part_count * 12, 1, mem.C⟩ : Mat R).setZero := rfl

/-- The model built on zero-filled storage is `build_model`. -/
theorem build_model_on_zero (p : Parameters R) :
    build_model_on ⟨fun _ _ => 0, fun _ _ => 0, fun _ _ => 0, fun _ _ => 0, fun _ _ => 0⟩ p =
      build_model p := rfl

/-- Exactness of the C++ quotient `(part_count * 12) / 2`. -/
theorem tdiv_twelve (n : Int) : Int.tdiv (n * 12) 2 = n * 6 := by
  have h : n * 12 = n * 6 * 2 := by ring
  rw [h, Int.mul_tdiv_cancel _ (by decide)]

/-- Shapes of the matrices built on arbitrary storage. -/
theorem build_model_on_dims (mem : Storage R) (p : Parameters R) :
    (build_model_on mem p).dynamics_matrix.rows = 12 * p.part_count ∧
    (build_model_on mem p).dynamics_matrix.cols = 12 * p.part_count ∧
    (build_model_on mem p).noise_matrix.rows = 12 * p.part_count ∧
    (build_model_on mem p).noise_matrix.cols = 6 * p.part_count ∧
    (build_model_on mem p).input_matrix.rows = 12 * p.part_count ∧
    (build_model_on mem p).input_matrix.cols = 1 := by
  rw [build_model_on_dynamics, build_model_on_noise, build_model_on_input]
  obtain ⟨h1, h2, h3, h4⟩ := tileFold_shape (part_A_on mem.part_A p) (part_B_on mem.part_B p)
    ((⟨p.part_count * 12, p.part_count * 12, mem.A⟩ : Mat R).setIdentity,
     (⟨p.part_count * 12, Int.tdiv (p.part_count * 12) 2, mem.B⟩ : Mat R).setZero)
    p.part_count.toNat
  rw [h1, h2, h3, h4]
  simp only [Mat.setIdentity, Mat.setZero, Mat.assignBlock, tdiv_twelve]
  refine ⟨by ring, by ring, by ring, by ring, by ring, trivial⟩

/-- Every coefficient of the dynamics matrix inside its shape, whatever the storage held. -/
theorem build_model_on_A_coeff (mem : Storage R) (p : Parameters R) (r c : Int)
    (hr0 : 0 ≤ r) (hr : r < 12 * p.part_count) (hc0 : 0 ≤ c) (hc : c < 12 * p.part_count) :
    (build_model_on mem p).dynamics_matrix.coeff r c =
      if r / 12 = c / 12 then
        (if r % 12 = c % 12 then (if c % 12 < 6 then 1 else p.velocity_factor)
         else if c % 12 = r % 12 + 6 then p.velocity_factor else 0)
      else 0 := by
  rw [build_model_on_dynamics, tileFold_fst_coeff]
  by_cases hd : r / 12 = c / 12
  · have h1 : 0 ≤ r ∧ 0 ≤ c ∧ r / 12 = c / 12 ∧ r / 12 < (p.part_count.toNat : Int) := by
      omega
    rw [if_pos h1, if_pos hd,
      part_A_on_coeff mem.part_A p (r % 12) (c % 12) (by omega) (by omega) (by omega)
        (by omega)]
  · have h1 : ¬ (0 ≤ r ∧ 0 ≤ c ∧ r / 12 = c / 12 ∧ r / 12 < (p.part_count.toNat : Int)) := by
      omega
    have h2 : ¬ (r = c) := by
      intro e
      exact hd (by rw [e])
    rw [if_neg h1, if_neg hd]
    show ((⟨p.part_count * 12, p.part_count * 12, mem.A⟩ : Mat R).setIdentity).coeff r c = 0
    rw [setIdentity_coeff_in _ r c hr0 (by show r < p.part_count * 12; omega) hc0
      (by show c < p.part_count * 12; omega), if_neg h2]

/-- Every coefficient of the noise matrix inside its shape, whatever the storage held. -/
theorem build_model_on_B_coeff (mem : Storage R) (p : Parameters R) (r c : Int)
    (hr0 : 0 ≤ r) (hr : r < 12 * p.part_count) (hc0 : 0 ≤ c) (hc : c < 6 * p.part_count) :
    (build_model_on mem p).noise_matrix.coeff r c =
      if r / 12 = c / 6 then
        (if r % 12 = c % 6 ∨ r % 12 = c % 6 + 6 then
          (if c % 6 < 3 then p.linear_sigma else p.angular_sigma)
         else 0)
      else 0 := by
  rw [build_model_on_noise, tileFold_snd_coeff]
  by_cases hd : r / 12 = c / 6
  · have h1 : 0 ≤ r ∧ 0 ≤ c ∧ r / 12 = c / 6 ∧ r / 12 < (p.part_count.toNat : Int) := by
      omega
    rw [if_pos h1, if_pos hd,
      part_B_on_coeff mem.part_B p (r % 12) (c % 6) (by omega) (by omega) (by omega)
        (by omega)]
  · have h1 : ¬ (0 ≤ r ∧ 0 ≤ c ∧ r / 12 = c / 6 ∧ r / 12 < (p.part_count.toNat : Int)) := by
      omega
    rw [if_neg h1, if_neg hd]
    show ((⟨p.part_count * 12, Int.tdiv (p.part_count * 12) 2, mem.B⟩ : Mat R).setZero).coeff
      r c = 0
    rw [setZero_coeff_in _ r c hr0 (by show r < p.part_count * 12; omega) hc0
      (by show c < Int.tdiv (p.part_count * 12) 2; rw [tdiv_twelve]; omega)]

/-- Every coefficient of the input matrix inside its shape, whatever the storage held. -/
theorem build_model_on_C_coeff (mem : Storage R) (p : Parameters R) (r c : Int)
    (hr0 : 0 ≤ r) (hr : r < 12 * p.part_count) (hc0 : 0 ≤ c) (hc : c < 1) :
    (build_model_on mem p).input_matrix.coeff r c = 0 := by
  rw [build_model_on_input]
  exact setZero_coeff_in _ r c hr0 (by show r < p.part_count * 12; omega) hc0 hc

/-- Coefficients of the specified dynamics template. -/
theorem spec_part_dynamics_coeff (v : R) (r c : Int)
    (hr0 : 0 ≤ r) (hr : r < 12) (hc0 : 0 ≤ c) (hc : c < 12) :
    (spec_part_dynamics v).coeff r c =
      if r = c then (if c < 6 then 1 else v)
      else if c = r + 6 then v else 0 := by
  simp only [spec_part_dynamics, Mat.assignBlock, Mat.inBlock, Mat.Identity]
  split_ifs <;> first | omega | simp

/-- Coefficients of the specified noise template. -/
theorem spec_part_noise_coeff (s t : R) (r c : Int)
    (hr0 : 0 ≤ r) (hr : r < 12) (hc0 : 0 ≤ c) (hc : c < 6) :
    (spec_part_noise s t).coeff r c =
      if r = c ∨ r = c + 6 then (if c < 3 then s else t)
      else 0 := by
  simp only [spec_part_noise, Mat.assignBlock, Mat.inBlock, Mat.Identity, Mat.Zero, Mat.scale]
  split_ifs <;> first | omega | simp

theorem spec_build_dynamics (p : Parameters R) :
    (spec_build p).dynamics_matrix =
      ((List.range p.part_count.toNat).foldl
        (spec_place (spec_part_dynamics p.velocity_factor)
          (spec_part_noise p.linear_sigma p.angular_sigma))
        (Mat.Zero (12 * p.part_count) (12 * p.part_count),
         Mat.Zero (12 * p.part_count) (12 * p.part_count / 2))).1 := rfl

theorem spec_build_noise (p : Parameters R) :
    (spec_build p).noise_matrix =
      ((List.range p.part_count.toNat).foldl
        (spec_place (spec_part_dynamics p.velocity_factor)
          (spec_part_noise p.linear_sigma p.angular_sigma))
        (Mat.Zero (12 * p.part_count) (12 * p.part_count),
         Mat.Zero (12 * p.part_count) (12 * p.part_count / 2))).2 := rfl

theorem spec_build_input (p : Parameters R) :
    (spec_build p).input_matrix = Mat.Zero (12 * p.part_count) 1 := rfl

/-- Shapes of the matrices of the specified algorithm. -/
theorem spec_build_dims (p : Parameters R) :
    (spec_build p).dynamics_matrix.rows = 12 * p.part_count ∧
    (spec_build p).dynamics_matrix.cols = 12 * p.part_count ∧
    (spec_build p).noise_matrix.rows = 12 * p.part_count ∧
    (spec_build p).noise_matrix.cols = 6 * p.part_count ∧
    (spec_build p).input_matrix.rows = 12 * p.part_count ∧
    (spec_build p).input_matrix.cols = 1 := by
  rw [spec_build_dynamics, spec_build_noise, spec_build_input, spec_place_eq]
  obtain ⟨h1, h2, h3, h4⟩ := tileFold_shape (spec_part_dynamics p.velocity_factor)
    (spec_part_noise p.linear_sigma p.angular_sigma)
    ((Mat.Zero (12 * p.part_count) (12 * p.part_count) : Mat R),
     (Mat.Zero (12 * p.part_count) (12 * p.part_count / 2) : Mat R)) p.part_count.toNat
  rw [h1, h2, h3, h4]
  simp only [Mat.Zero]
  refine ⟨trivial, trivial, trivial, by omega, trivial, trivial⟩

/-- Every coefficient of the dynamics matrix of the specified algorithm. -/
theorem spec_build_A_coeff (p : Parameters R) (r c : Int)
    (hr0 : 0 ≤ r) (hr : r < 12 * p.part_count) (hc0 : 0 ≤ c) (hc : c < 12 * p.part_count) :
    (spec_build p).dynamics_matrix.coeff r c =
      if r / 12 = c / 12 then
        (if r % 12 = c % 12 then (if c % 12 < 6 then 1 else p.velocity_factor)
         else if c % 12 = r % 12 + 6 then p.velocity_factor else 0)
      else 0 := by
  rw [spec_build_dynamics, spec_place_eq, tileFold_fst_coeff]
  by_cases hd : r / 12 = c / 12
  · have h1 : 0 ≤ r ∧ 0 ≤ c ∧ r / 12 = c / 12 ∧ r / 12 < (p.part_count.toNat : Int) := by
      omega
    rw [if_pos h1, if_pos hd,
      spec_part_dynamics_coeff p.velocity_factor (r % 12) (c % 12) (by omega) (by omega)
        (by omega) (by omega)]
  · have h1 : ¬ (0 ≤ r ∧ 0 ≤ c ∧ r / 12 = c / 12 ∧ r / 12 < (p.part_count.toNat : Int)) := by
      omega
    rw [if_neg h1, if_neg hd]
    rfl

/-- Every coefficient of the noise matrix of the specified algorithm. -/
theorem spec_build_B_coeff (p : Parameters R) (r c : Int)
    (hr0 : 0 ≤ r) (hr : r < 12 * p.part_count) (hc0 : 0 ≤ c) (hc : c < 6 * p.part_count) :
    (spec_build p).noise_matrix.coeff r c =
      if r / 12 = c / 6 then
        (if r % 12 = c % 6 ∨ r % 12 = c % 6 + 6 then
          (if c % 6 < 3 then p.linear_sigma else p.angular_sigma)
         else 0)
      else 0 := by
  rw [spec_build_noise, spec_place_eq, tileFold_snd_coeff]
  by_cases hd : r / 12 = c / 6
  · have h1 : 0 ≤ r ∧ 0 ≤ c ∧ r / 12 = c / 6 ∧ r / 12 < (p.part_count.toNat : Int) := by
      omega
    rw [if_pos h1, if_pos hd,
      spec_part_noise_coeff p.linear_sigma p.angular_sigma (r % 12) (c % 6) (by omega)
        (by omega) (by omega) (by omega)]
  · have h1 : ¬ (0 ≤ r ∧ 0 ≤ c ∧ r / 12 = c / 6 ∧ r / 12 < (p.part_count.toNat : Int)) := by
      omega
    rw [if_neg h1, if_neg hd]
    rfl

/-- Pose row `12 i + k` of the product of the dynamics matrix with `x`. -/
theorem mul_dynamics_pose_row (p : Parameters R) (i k : Nat) (hi : (i : Int) < p.part_count)
    (hk : k < 6) (x : Mat R) (c : Int) :
    ((build_model p).dynamics_matrix.mul x).coeff ((12 * i + k : Nat) : Int) c =
      x.coeff ((12 * i + k : Nat) : Int) c
        + p.velocity_factor * x.coeff ((12 * i + k + 6 : Nat) : Int) c := by
  obtain ⟨_, hAc, _, _, _, _⟩ := build_model_dims p
  have hN : (build_model p).dynamics_matrix.cols.toNat = 12 * p.part_count.toNat := by
    rw [hAc]; omega
  have e : (((12 * i + k : Nat)) : Int) = 12 * (i : Int) + ((k : Nat) : Int) := by
    push_cast; ring
  simp only [Mat.mul]
  rw [hN, e]
  have s := sum_mul_pair (12 * p.part_count.toNat) (12 * i + k) (12 * i + k + 6)
    (by omega) (by omega) (1 : R) p.velocity_factor
    (fun j => (build_model p).dynamics_matrix.coeff (12 * (i : Int) + k) (j : Int))
    (fun j => x.coeff (j : Int) c)
    (fun j _ => by
      have := build_model_A_row p i k j hi (by omega) (by omega)
      simp only [if_pos hk] at this
      exact this)
  simp only at s
  rw [s, one_mul, e]

/-- Velocity row `12 i + 6 + k` of the product of the dynamics matrix with `x`. -/
theorem mul_dynamics_velocity_row (p : Parameters R) (i k : Nat)
    (hi : (i : Int) < p.part_count) (hk : k < 6) (x : Mat R) (c : Int) :
    ((build_model p).dynamics_matrix.mul x).coeff ((12 * i + k + 6 : Nat) : Int) c =
      p.velocity_factor * x.coeff ((12 * i + k + 6 : Nat) : Int) c := by
  obtain ⟨_, hAc, _, _, _, _⟩ := build_model_dims p
  have hN : (build_model p).dynamics_matrix.cols.toNat = 12 * p.part_count.toNat := by
    rw [hAc]; omega
  have e : (((12 * i + k + 6 : Nat)) : Int) = 12 * (i : Int) + ((k + 6 : Nat) : Int) := by
    push_cast; ring
  simp only [Mat.mul]
  rw [hN, e]
  have s := sum_mul_single (12 * p.part_count.toNat) (12 * i + k + 6)
    (by omega) p.velocity_factor
    (fun j => (build_model p).dynamics_matrix.coeff (12 * (i : Int) + ((k + 6 : Nat) : Int))
      (j : Int))
    (fun j => x.coeff (j : Int) c)
    (fun j _ => by
      have := build_model_A_row p i (k + 6) j hi (by omega) (by omega)
      have h6 : ¬ (k + 6 < 6) := by omega
      simp only [if_neg h6, ite_self, add_zero] at this
      exact this)
  simp only at s
  rw [s, e]

/-- Row `12 i + r` of the product of the noise matrix with `w`. -/
theorem mul_noise_row (p : Parameters R) (i r : Nat) (hi : (i : Int) < p.part_count)
    (hr : r < 12) (w : Mat R) (c : Int) :
    ((build_model p).noise_matrix.mul w).coeff ((12 * i + r : Nat) : Int) c =
      (if r % 6 < 3 then p.linear_sigma else p.angular_sigma)
        * w.coeff ((6 * i + r % 6 : Nat) : Int) c := by
  obtain ⟨_, _, _, hBc, _, _⟩ := build_model_dims p
  have hN : (build_model p).noise_matrix.cols.toNat = 6 * p.part_count.toNat := by
    rw [hBc]; omega
  have e : (((12 * i + r : Nat)) : Int) = 12 * (i : Int) + ((r : Nat) : Int) := by
    push_cast; ring
  simp only [Mat.mul]
  rw [hN, e]
  have s := sum_mul_single (6 * p.part_count.toNat) (6 * i + r % 6)
    (by omega) (if r % 6 < 3 then p.linear_sigma else p.angular_sigma)
    (fun j => (build_model p).noise_matrix.coeff (12 * (i : Int) + r) (j : Int))
    (fun j => w.coeff (j : Int) c)
    (fun j _ => build_model_B_row p i r j hi hr (by omega))
  simp only at s
  rw [s]

/-- The noise-free transition applied once more. -/
theorem noise_free_steps_succ (m : DerivedModel R) (t : Nat) (x : Mat R) :
    noise_free_steps m (t + 1) x = m.dynamics_matrix.mul (noise_free_steps m t x) := by
  unfold noise_free_steps
  rw [Function.iterate_succ_apply']

end Lemmas

/-! ## Properties of the built model -/

section Properties

variable {R : Type} [CommRing R]

/-- C1: for every `part_count >= 1`, whatever the sigmas and the velocity factor are, the
dynamics matrix of the built model has shape `12n x 12n`, the noise matrix `12n x 6n` and the
input matrix `12n x 1`. -/
theorem build_model_shape_of_pos (p : Parameters R) (_hn : 1 ≤ p.part_count) :
    (build_model p).dynamics_matrix.rows = 12 * p.part_count ∧
    (build_model p).dynamics_matrix.cols = 12 * p.part_count ∧
    (build_model p).noise_matrix.rows = 12 * p.part_count ∧
    (build_model p).noise_matrix.cols = 6 * p.part_count ∧
    (build_model p).input_matrix.rows = 12 * p.part_count ∧
    (build_model p).input_matrix.cols = 1 := by
  obtain ⟨h1, h2, h3, h4, h5, h6⟩ := build_model_shapes p
  rw [total_noise_dim_eq] at h4
  unfold total_state_dim at h1 h2 h3 h5
  exact ⟨by omega, by omega, by omega, by omega, by omega, h6⟩

theorem build_model_shape_of_pos_witness :
    (1 : Int) ≤ (⟨1, 2, 9, 3⟩ : Parameters ℤ).part_count ∧
    (build_model (⟨1, 2, 9, 3⟩ : Parameters ℤ)).dynamics_matrix.rows = 36 ∧
    (build_model (⟨1, 2, 9, 3⟩ : Parameters ℤ)).dynamics_matrix.cols = 36 ∧
    (build_model (⟨1, 2, 9, 3⟩ : Parameters ℤ)).noise_matrix.rows = 36 ∧
    (build_model (⟨1, 2, 9, 3⟩ : Parameters ℤ)).noise_matrix.cols = 18 ∧
    (build_model (⟨1, 2, 9, 3⟩ : Parameters ℤ)).input_matrix.rows = 36 ∧
    (build_model (⟨1, 2, 9, 3⟩ : Parameters ℤ)).input_matrix.cols = 1 :=
  ⟨by decide, build_model_shape_of_pos (⟨1, 2, 9, 3⟩ : Parameters ℤ) (by decide)⟩

/-- C2: for every `part_count >= 1`, body `i` and `r, c < 12`, the entry of the dynamics matrix
at row `12 i + r`, column `12 i + c` is `1` when `r = c < 6`, `velocity_factor` when
`c = r + 6`, `velocity_factor` when `r = c >= 6`, and `0` otherwise. -/
theorem dynamics_block_entry (p : Parameters R) (_hn : 1 ≤ p.part_count) (i r c : Nat)
    (hi : (i : Int) < p.part_count) (hr : r < 12) (hc : c < 12) :
    (build_model p).dynamics_matrix.coeff (12 * (i : Int) + r) (12 * (i : Int) + c) =
      if r = c ∧ c < 6 then 1
      else if c = r + 6 then p.velocity_factor
      else if r = c ∧ 6 ≤ c then p.velocity_factor
      else 0 := by
  rw [build_model_A_entry p i i r c hi hi hr hc]
  split_ifs <;> first | rfl | omega

theorem dynamics_block_entry_witness :
    (1 : Int) ≤ (⟨1/10, 2/10, 9/10, 1⟩ : Parameters ℚ).part_count ∧
    ((0 : Nat) : Int) < (⟨1/10, 2/10, 9/10, 1⟩ : Parameters ℚ).part_count ∧
    (build_model (⟨1/10, 2/10, 9/10, 1⟩ : Parameters ℚ)).dynamics_matrix.coeff 0 0 = 1 ∧
    (build_model (⟨1/10, 2/10, 9/10, 1⟩ : Parameters ℚ)).dynamics_matrix.coeff 0 6 = 9/10 ∧
    (build_model (⟨1/10, 2/10, 9/10, 1⟩ : Parameters ℚ)).dynamics_matrix.coeff 6 6 = 9/10 ∧
    (build_model (⟨1/10, 2/10, 9/10, 1⟩ : Parameters ℚ)).dynamics_matrix.coeff 6 0 = 0 ∧
    (build_model (⟨1/10, 2/10, 9/10, 1⟩ : Parameters ℚ)).dynamics_matrix.coeff 0 7 = 0 :=
  ⟨by decide, by decide,
   by simpa using dynamics_block_entry (⟨1/10, 2/10, 9/10, 1⟩ : Parameters ℚ) (by decide) 0 0 0
       (by decide) (by decide) (by decide),
   by simpa using dynamics_block_entry (⟨1/10, 2/10, 9/10, 1⟩ : Parameters ℚ) (by decide) 0 0 6
       (by decide) (by decide) (by decide),
   by simpa using dynamics_block_entry (⟨1/10, 2/10, 9/10, 1⟩ : Parameters ℚ) (by decide) 0 6 6
       (by decide) (by decide) (by decide),
   by simpa using dynamics_block_entry (⟨1/10, 2/10, 9/10, 1⟩ : Parameters ℚ) (by decide) 0 6 0
       (by decide) (by decide) (by decide),
   by simpa using dynamics_block_entry (⟨1/10, 2/10, 9/10, 1⟩ : Parameters ℚ) (by decide) 0 0 7
       (by decide) (by decide) (by decide)⟩

/-- C6: for every `part_count >= 1`, state `x` of length `12n`, noise `w` of length `6n` and
control input `u`, the transition `A x + B w + C u` of the built model has the shape of a state,
equals `A x + B w` in every row, and for body `i` and `k < 6` its pose row `12 i + k` is
`x[12i+k] + velocity_factor * x[12i+6+k] + s_k * w[6i+k]` and its velocity row `12 i + 6 + k`
is `velocity_factor * x[12i+6+k] + s_k * w[6i+k]`, where `s_k` is `linear_sigma` for `k < 3`
and `angular_sigma` otherwise. -/
theorem transition_step (p : Parameters R) (hn : 1 ≤ p.part_count) (x w u : Mat R)
    (_hx : x.rows = 12 * p.part_count) (hx1 : x.cols = 1)
    (_hw : w.rows = 6 * p.part_count) (_hw1 : w.cols = 1) :
    (((build_model p).state x w u).rows = 12 * p.part_count ∧
     ((build_model p).state x w u).cols = 1 ∧
     ∀ r : Nat, (r : Int) < 12 * p.part_count →
       ((build_model p).state x w u).coeff r 0 =
         (((build_model p).dynamics_matrix.mul x).add
           ((build_model p).noise_matrix.mul w)).coeff r 0) ∧
    ∀ i k : Nat, (i : Int) < p.part_count → k < 6 →
      ((build_model p).state x w u).coeff (12 * (i : Int) + k) 0 =
        x.coeff (12 * (i : Int) + k) 0
          + p.velocity_factor * x.coeff (12 * (i : Int) + 6 + k) 0
          + (if k < 3 then p.linear_sigma else p.angular_sigma) * w.coeff (6 * (i : Int) + k) 0 ∧
      ((build_model p).state x w u).coeff (12 * (i : Int) + 6 + k) 0 =
        p.velocity_factor * x.coeff (12 * (i : Int) + 6 + k) 0
          + (if k < 3 then p.linear_sigma else p.angular_sigma) * w.coeff (6 * (i : Int) + k) 0 := by
  obtain ⟨hAr, hAc, _, hBc, _, hCc⟩ := build_model_dims p
  have hC : ∀ r c : Int,
      Finset.sum (Finset.range (build_model p).input_matrix.cols.toNat)
        (fun k => (build_model p).input_matrix.coeff r (k : Int) * u.coeff (k : Int) c) = 0 := by
    intro r c
    apply Finset.sum_eq_zero
    intro k _
    rw [build_model_input]
    simp only [Mat.setZero, Mat.assignBlock, Mat.Zero, Mat.fresh, ite_self, zero_mul]
  have hstate : ∀ r c : Int, ((build_model p).state x w u).coeff r c =
      (((build_model p).dynamics_matrix.mul x).add
        ((build_model p).noise_matrix.mul w)).coeff r c := by
    intro r c
    simp only [DerivedModel.state, Mat.add, Mat.mul]
    rw [hC r c, add_zero]
  refine ⟨⟨?_, ?_, fun r _ => hstate (r : Int) 0⟩, ?_⟩
  · simp only [DerivedModel.state, Mat.add, Mat.mul]
    exact hAr
  · simp only [DerivedModel.state, Mat.add, Mat.mul]
    exact hx1
  · intro i k hi hk
    rw [hstate, hstate]
    simp only [Mat.add, Mat.mul]
    have hNA : (build_model p).dynamics_matrix.cols.toNat = 12 * p.part_count.toNat := by
      rw [hAc]; omega
    have hNB : (build_model p).noise_matrix.cols.toNat = 6 * p.part_count.toNat := by
      rw [hBc]; omega
    rw [hNA, hNB]
    have e1 : (12 * (i : Int) + 6 + k) = 12 * (i : Int) + ((k + 6 : Nat) : Int) := by
      push_cast; ring
    have e2 : (12 * (i : Int) + k) = ((12 * i + k : Nat) : Int) := by push_cast; ring
    have e3 : (12 * (i : Int) + ((k + 6 : Nat) : Int)) = ((12 * i + k + 6 : Nat) : Int) := by
      push_cast; ring
    have e4 : (6 * (i : Int) + k) = ((6 * i + k : Nat) : Int) := by push_cast; ring
    have sA := sum_mul_pair (12 * p.part_count.toNat) (12 * i + k) (12 * i + k + 6)
      (by omega) (by omega) (1 : R) p.velocity_factor
      (fun j => (build_model p).dynamics_matrix.coeff (12 * (i : Int) + k) (j : Int))
      (fun j => x.coeff (j : Int) 0)
      (fun j hj => by
        have := build_model_A_row p i k j hi (by omega) (by omega)
        simp only [if_pos hk] at this
        exact this)
    have sV := sum_mul_single (12 * p.part_count.toNat) (12 * i + k + 6)
      (by omega) p.velocity_factor
      (fun j => (build_model p).dynamics_matrix.coeff (12 * (i : Int) + ((k + 6 : Nat) : Int))
        (j : Int))
      (fun j => x.coeff (j : Int) 0)
      (fun j hj => by
        have := build_model_A_row p i (k + 6) j hi (by omega) (by omega)
        have h6 : ¬ (k + 6 < 6) := by omega
        simp only [if_neg h6, ite_self, add_zero] at this
        exact this)
    have sB := sum_mul_single (6 * p.part_count.toNat) (6 * i + k)
      (by omega) (if k < 3 then p.linear_sigma else p.angular_sigma)
      (fun j => (build_model p).noise_matrix.coeff (12 * (i : Int) + k) (j : Int))
      (fun j => w.coeff (j : Int) 0)
      (fun j hj => by
        have := build_model_B_row p i k j hi (by omega) (by omega)
        rw [Nat.mod_eq_of_lt hk] at this
        exact this)
    have sB2 := sum_mul_single (6 * p.part_count.toNat) (6 * i + k)
      (by omega) (if k < 3 then p.linear_sigma else p.angular_sigma)
      (fun j => (build_model p).noise_matrix.coeff (12 * (i : Int) + ((k + 6 : Nat) : Int))
        (j : Int))
      (fun j => w.coeff (j : Int) 0)
      (fun j hj => by
        have := build_model_B_row p i (k + 6) j hi (by omega) (by omega)
        have h6 : (k + 6) % 6 = k := by omega
        rw [h6] at this
        exact this)
    simp only at sA sV sB sB2
    rw [e1, sA, sV, sB, sB2, e2, e3, e4, one_mul]
    exact ⟨rfl, rfl⟩

theorem transition_step_witness :
    (1 : Int) ≤ (⟨1/10, 2/10, 9/10, 1⟩ : Parameters ℚ).part_count ∧
    ((0 : Nat) : Int) < (⟨1/10, 2/10, 9/10, 1⟩ : Parameters ℚ).part_count ∧
    ((build_model (⟨1/10, 2/10, 9/10, 1⟩ : Parameters ℚ)).state
        ⟨12, 1, fun r _ => (r : ℚ)⟩ ⟨6, 1, fun _ _ => 1⟩ ⟨1, 1, fun _ _ => 5⟩).coeff 0 0
      = 11/2 ∧
    ((build_model (⟨1/10, 2/10, 9/10, 1⟩ : Parameters ℚ)).state
        ⟨12, 1, fun r _ => (r : ℚ)⟩ ⟨6, 1, fun _ _ => 1⟩ ⟨1, 1, fun _ _ => 5⟩).coeff 6 0
      = 11/2 := by
  have h := (transition_step (⟨1/10, 2/10, 9/10, 1⟩ : Parameters ℚ) (by decide)
    ⟨12, 1, fun r _ => (r : ℚ)⟩ ⟨6, 1, fun _ _ => 1⟩ ⟨1, 1, fun _ _ => 5⟩ rfl rfl rfl rfl).2 0 0
    (by decide) (by decide)
  refine ⟨by decide, by decide, ?_, ?_⟩
  · have h1 := h.1
    norm_num at h1
    exact h1
  · have h2 := h.2
    norm_num at h2
    exact h2

/-- C7: scaling. For every `part_count >= 1` the dynamics matrix consists of copies of the
12x12 dynamics matrix built for `part_count = 1` on the diagonal blocks `(12 i, 12 i)` and of
zeros elsewhere, and the noise matrix consists of copies of the 12x6 noise matrix built for
`part_count = 1` on the blocks `(12 i, 6 i)` and of zeros elsewhere. -/
theorem block_diagonal_of_single (p : Parameters R) (_hn : 1 ≤ p.part_count) :
    ((build_model { p with part_count := 1 }).dynamics_matrix.rows = 12 ∧
     (build_model { p with part_count := 1 }).dynamics_matrix.cols = 12 ∧
     (build_model { p with part_count := 1 }).noise_matrix.rows = 12 ∧
     (build_model { p with part_count := 1 }).noise_matrix.cols = 6) ∧
    ((build_model p).dynamics_matrix.rows = 12 * p.part_count ∧
     (build_model p).dynamics_matrix.cols = 12 * p.part_count ∧
     (build_model p).noise_matrix.rows = 12 * p.part_count ∧
     (build_model p).noise_matrix.cols = 6 * p.part_count) ∧
    (∀ i j r c : Nat, (i : Int) < p.part_count → (j : Int) < p.part_count → r < 12 → c < 12 →
      (build_model p).dynamics_matrix.coeff (12 * (i : Int) + r) (12 * (j : Int) + c) =
        if i = j then (build_model { p with part_count := 1 }).dynamics_matrix.coeff r c
        else 0) ∧
    (∀ i j r c : Nat, (i : Int) < p.part_count → (j : Int) < p.part_count → r < 12 → c < 6 →
      (build_model p).noise_matrix.coeff (12 * (i : Int) + r) (6 * (j : Int) + c) =
        if i = j then (build_model { p with part_count := 1 }).noise_matrix.coeff r c
        else 0) := by
  obtain ⟨a1, a2, a3, a4, _, _⟩ := build_model_dims { p with part_count := 1 }
  obtain ⟨b1, b2, b3, b4, _, _⟩ := build_model_dims p
  refine ⟨⟨a1, a2, a3, a4⟩, ⟨b1, b2, b3, b4⟩, ?_, ?_⟩
  · intro i j r c hi hj hr hc
    have h1 := build_model_A_entry { p with part_count := 1 } 0 0 r c (by simp) (by simp)
      hr hc
    simp only [Nat.cast_zero, mul_zero, zero_add, if_true] at h1
    rw [build_model_A_entry p i j r c hi hj hr hc, h1]
  · intro i j r c hi hj hr hc
    have h1 := build_model_B_entry { p with part_count := 1 } 0 0 r c (by simp) (by simp)
      hr hc
    simp only [Nat.cast_zero, mul_zero, zero_add, if_true] at h1
    rw [build_model_B_entry p i j r c hi hj hr hc, h1]

theorem block_diagonal_of_single_witness :
    (1 : Int) ≤ (⟨1/10, 2/10, 9/10, 3⟩ : Parameters ℚ).part_count ∧
    (build_model (⟨1/10, 2/10, 9/10, 3⟩ : Parameters ℚ)).dynamics_matrix.coeff 24 30 =
      (build_model (⟨1/10, 2/10, 9/10, 1⟩ : Parameters ℚ)).dynamics_matrix.coeff 0 6 ∧
    (build_model (⟨1/10, 2/10, 9/10, 3⟩ : Parameters ℚ)).dynamics_matrix.coeff 24 6 = 0 ∧
    (build_model (⟨1/10, 2/10, 9/10, 3⟩ : Parameters ℚ)).noise_matrix.coeff 30 12 =
      (build_model (⟨1/10, 2/10, 9/10, 1⟩ : Parameters ℚ)).noise_matrix.coeff 6 0 ∧
    (build_model (⟨1/10, 2/10, 9/10, 3⟩ : Parameters ℚ)).noise_matrix.coeff 30 0 = 0 := by
  have h := block_diagonal_of_single (⟨1/10, 2/10, 9/10, 3⟩ : Parameters ℚ) (by decide)
  refine ⟨by decide, ?_, ?_, ?_, ?_⟩
  · simpa using h.2.2.1 2 2 0 6 (by decide) (by decide) (by decide) (by decide)
  · simpa using h.2.2.1 2 0 0 6 (by decide) (by decide) (by decide) (by decide)
  · simpa using h.2.2.2 2 2 6 0 (by decide) (by decide) (by decide) (by decide)
  · simpa using h.2.2.2 2 0 6 0 (by decide) (by decide) (by decide) (by decide)

/-- C8: two configurations with `part_count >= 1` that differ only in `velocity_factor` give
identical noise and input matrices, dynamics matrices of the same shape, and the same dynamics
entry at every position that is not in columns `12 i + 6 .. 12 i + 11` of the diagonal block
of some body `i`. -/
theorem velocity_factor_frame (p : Parameters R) (v2 : R) (_hn : 1 ≤ p.part_count) :
    (build_model { p with velocity_factor := v2 }).noise_matrix = (build_model p).noise_matrix ∧
    (build_model { p with velocity_factor := v2 }).input_matrix = (build_model p).input_matrix ∧
    (build_model { p with velocity_factor := v2 }).dynamics_matrix.rows =
      (build_model p).dynamics_matrix.rows ∧
    (build_model { p with velocity_factor := v2 }).dynamics_matrix.cols =
      (build_model p).dynamics_matrix.cols ∧
    ∀ r c : Nat, (r : Int) < 12 * p.part_count → (c : Int) < 12 * p.part_count →
      ¬ (∃ i : Nat, (i : Int) < p.part_count ∧ 12 * i ≤ r ∧ r < 12 * i + 12 ∧
          12 * i + 6 ≤ c ∧ c < 12 * i + 12) →
      (build_model { p with velocity_factor := v2 }).dynamics_matrix.coeff r c =
        (build_model p).dynamics_matrix.coeff r c := by
  obtain ⟨a1, a2, _, _, _, _⟩ := build_model_dims { p with velocity_factor := v2 }
  obtain ⟨b1, b2, _, _, _, _⟩ := build_model_dims p
  refine ⟨?_, rfl, by rw [a1, b1], by rw [a2, b2], ?_⟩
  · rw [build_model_noise, build_model_noise]
    exact tileFold_snd_indep _ _ _ _ _ rfl _
  · intro r c hr hc hex
    have hr2 : (r : Int) = 12 * ((r / 12 : Nat) : Int) + ((r % 12 : Nat) : Int) := by omega
    have hc2 : (c : Int) = 12 * ((c / 12 : Nat) : Int) + ((c % 12 : Nat) : Int) := by omega
    have key : r / 12 = c / 12 → c % 12 < 6 := by
      intro e
      by_contra hcon
      exact hex ⟨c / 12, by omega, by omega, by omega, by omega, by omega⟩
    rw [hr2, hc2,
      build_model_A_entry p (r / 12) (c / 12) (r % 12) (c % 12) (by omega) (by omega)
        (by omega) (by omega),
      build_model_A_entry { p with velocity_factor := v2 } (r / 12) (c / 12) (r % 12) (c % 12)
        (by show ((r / 12 : Nat) : Int) < p.part_count; omega)
        (by show ((c / 12 : Nat) : Int) < p.part_count; omega)
        (by omega) (by omega)]
    split_ifs <;> first | rfl | omega

theorem velocity_factor_frame_witness :
    (1 : Int) ≤ (⟨1/10, 2/10, 9/10, 2⟩ : Parameters ℚ).part_count ∧
    (build_model (⟨1/10, 2/10, 1/2, 2⟩ : Parameters ℚ)).noise_matrix =
      (build_model (⟨1/10, 2/10, 9/10, 2⟩ : Parameters ℚ)).noise_matrix ∧
    (build_model (⟨1/10, 2/10, 1/2, 2⟩ : Parameters ℚ)).dynamics_matrix.coeff 13 13 =
      (build_model (⟨1/10, 2/10, 9/10, 2⟩ : Parameters ℚ)).dynamics_matrix.coeff 13 13 := by
  have h := velocity_factor_frame (⟨1/10, 2/10, 9/10, 2⟩ : Parameters ℚ) (1/2) (by decide)
  refine ⟨by decide, h.1, ?_⟩
  simpa using h.2.2.2.2 13 13 (by decide) (by decide) (by
    rintro ⟨i, -, h1, h2, h3, h4⟩
    omega)

/-- C9: two configurations with `part_count >= 1` that differ only in `linear_sigma` give
identical dynamics and input matrices and noise matrices that agree at every position outside
rows `12 i + 0..2` and `12 i + 6..8`, columns `6 i + 0..2`; two configurations that differ only
in `angular_sigma` give identical dynamics and input matrices and noise matrices that agree at
every position outside rows `12 i + 3..5` and `12 i + 9..11`, columns `6 i + 3..5`. -/
theorem sigma_frame (p : Parameters R) (s2 : R) (_hn : 1 ≤ p.part_count) :
    ((build_model { p with linear_sigma := s2 }).dynamics_matrix =
        (build_model p).dynamics_matrix ∧
     (build_model { p with linear_sigma := s2 }).input_matrix = (build_model p).input_matrix ∧
     (build_model { p with linear_sigma := s2 }).noise_matrix.rows =
        (build_model p).noise_matrix.rows ∧
     (build_model { p with linear_sigma := s2 }).noise_matrix.cols =
        (build_model p).noise_matrix.cols ∧
     ∀ r c : Nat, (r : Int) < 12 * p.part_count → (c : Int) < 6 * p.part_count →
       ¬ (∃ i : Nat, (i : Int) < p.part_count ∧
           ((12 * i ≤ r ∧ r < 12 * i + 3) ∨ (12 * i + 6 ≤ r ∧ r < 12 * i + 9)) ∧
           6 * i ≤ c ∧ c < 6 * i + 3) →
       (build_model { p with linear_sigma := s2 }).noise_matrix.coeff r c =
         (build_model p).noise_matrix.coeff r c) ∧
    ((build_model { p with angular_sigma := s2 }).dynamics_matrix =
        (build_model p).dynamics_matrix ∧
     (build_model { p with angular_sigma := s2 }).input_matrix = (build_model p).input_matrix ∧
     (build_model { p with angular_sigma := s2 }).noise_matrix.rows =
        (build_model p).noise_matrix.rows ∧
     (build_model { p with angular_sigma := s2 }).noise_matrix.cols =
        (build_model p).noise_matrix.cols ∧
     ∀ r c : Nat, (r : Int) < 12 * p.part_count → (c : Int) < 6 * p.part_count →
       ¬ (∃ i : Nat, (i : Int) < p.part_count ∧
           ((12 * i + 3 ≤ r ∧ r < 12 * i + 6) ∨ (12 * i + 9 ≤ r ∧ r < 12 * i + 12)) ∧
           6 * i + 3 ≤ c ∧ c < 6 * i + 6) →
       (build_model { p with angular_sigma := s2 }).noise_matrix.coeff r c =
         (build_model p).noise_matrix.coeff r c) := by
  obtain ⟨_, _, a3, a4, _, _⟩ := build_model_dims { p with linear_sigma := s2 }
  obtain ⟨_, _, c3, c4, _, _⟩ := build_model_dims { p with angular_sigma := s2 }
  obtain ⟨_, _, b3, b4, _, _⟩ := build_model_dims p
  refine ⟨⟨?_, rfl, by rw [a3, b3], by rw [a4, b4], ?_⟩,
    ⟨?_, rfl, by rw [c3, b3], by rw [c4, b4], ?_⟩⟩
  · rw [build_model_dynamics, build_model_dynamics]
    exact tileFold_fst_indep _ _ _ _ _ rfl _
  · intro r c hr hc hex
    have hr2 : (r : Int) = 12 * ((r / 12 : Nat) : Int) + ((r % 12 : Nat) : Int) := by omega
    have hc2 : (c : Int) = 6 * ((c / 6 : Nat) : Int) + ((c % 6 : Nat) : Int) := by omega
    have key : r / 12 = c / 6 → (r % 12 = c % 6 ∨ r % 12 = c % 6 + 6) → 3 ≤ c % 6 := by
      intro e e2
      by_contra hcon
      exact hex ⟨c / 6, by omega, by omega, by omega, by omega⟩
    rw [hr2, hc2,
      build_model_B_entry p (r / 12) (c / 6) (r % 12) (c % 6) (by omega) (by omega)
        (by omega) (by omega),
      build_model_B_entry { p with linear_sigma := s2 } (r / 12) (c / 6) (r % 12) (c % 6)
        (by show ((r / 12 : Nat) : Int) < p.part_count; omega)
        (by show ((c / 6 : Nat) : Int) < p.part_count; omega)
        (by omega) (by omega)]
    split_ifs <;> first | rfl | omega
  · rw [build_model_dynamics, build_model_dynamics]
    exact tileFold_fst_indep _ _ _ _ _ rfl _
  · intro r c hr hc hex
    have hr2 : (r : Int) = 12 * ((r / 12 : Nat) : Int) + ((r % 12 : Nat) : Int) := by omega
    have hc2 : (c : Int) = 6 * ((c / 6 : Nat) : Int) + ((c % 6 : Nat) : Int) := by omega
    have key : r / 12 = c / 6 → (r % 12 = c % 6 ∨ r % 12 = c % 6 + 6) → c % 6 < 3 := by
      intro e e2
      by_contra hcon
      exact hex ⟨c / 6, by omega, by omega, by omega, by omega⟩
    rw [hr2, hc2,
      build_model_B_entry p (r / 12) (c / 6) (r % 12) (c % 6) (by omega) (by omega)
        (by omega) (by omega),
      build_model_B_entry { p with angular_sigma := s2 } (r / 12) (c / 6) (r % 12) (c % 6)
        (by show ((r / 12 : Nat) : Int) < p.part_count; omega)
        (by show ((c / 6 : Nat) : Int) < p.part_count; omega)
        (by omega) (by omega)]
    split_ifs <;> first | rfl | omega

theorem sigma_frame_witness :
    (1 : Int) ≤ (⟨1/10, 2/10, 9/10, 2⟩ : Parameters ℚ).part_count ∧
    (build_model (⟨7, 2/10, 9/10, 2⟩ : Parameters ℚ)).dynamics_matrix =
      (build_model (⟨1/10, 2/10, 9/10, 2⟩ : Parameters ℚ)).dynamics_matrix ∧
    (build_model (⟨7, 2/10, 9/10, 2⟩ : Parameters ℚ)).noise_matrix.coeff 15 9 =
      (build_model (⟨1/10, 2/10, 9/10, 2⟩ : Parameters ℚ)).noise_matrix.coeff 15 9 ∧
    (build_model (⟨1/10, 7, 9/10, 2⟩ : Parameters ℚ)).noise_matrix.coeff 18 6 =
      (build_model (⟨1/10, 2/10, 9/10, 2⟩ : Parameters ℚ)).noise_matrix.coeff 18 6 := by
  have h := sigma_frame (⟨1/10, 2/10, 9/10, 2⟩ : Parameters ℚ) 7 (by decide)
  refine ⟨by decide, h.1.1, ?_, ?_⟩
  · simpa using h.1.2.2.2.2 15 9 (by decide) (by decide) (by
      rintro ⟨i, -, h1, h2, h3⟩
      omega)
  · simpa using h.2.2.2.2.2 18 6 (by decide) (by decide) (by
      rintro ⟨i, -, h1, h2, h3⟩
      omega)

/-- C10: for every compile-time state size `S >= 0` the noise dimension of `ObjectStateTrait`
is `S / 2` in truncating integer arithmetic (so size 0 gives 0), and for the run-time marker
`SizeAtCompileTime = -1` it is that same marker `Eigen::Dynamic = -1`. -/
theorem NoiseDim_spec :
    (∀ S : Nat, NoiseDim (S : Int) = ((S / 2 : Nat) : Int)) ∧
    NoiseDim 0 = 0 ∧
    NoiseDim (-1) = Dynamic ∧
    Dynamic = -1 := by
  refine ⟨?_, by decide, by decide, rfl⟩
  intro S
  have hS : ¬ ((S : Int) = -1) := by omega
  simp only [NoiseDim, ne_eq, hS, not_false_eq_true, if_true]
  rw [Int.tdiv_eq_ediv (by omega) (by omega)]
  omega

/-- C13: determinism. Two configurations with the same `linear_sigma`, `angular_sigma`,
`velocity_factor` and `part_count` give the same model, and two runs of `build_model` on them
give matrices `A`, `B` and `C` of the same shapes with the same entry at every index, whatever
the storage of the matrices held before each run. -/
theorem build_model_deterministic (mem mem2 : Storage R) (p q : Parameters R)
    (h1 : p.linear_sigma = q.linear_sigma) (h2 : p.angular_sigma = q.angular_sigma)
    (h3 : p.velocity_factor = q.velocity_factor) (h4 : p.part_count = q.part_count) :
    build_model p = build_model q ∧
    ((build_model_on mem p).dynamics_matrix.rows = (build_model_on mem2 q).dynamics_matrix.rows ∧
     (build_model_on mem p).dynamics_matrix.cols = (build_model_on mem2 q).dynamics_matrix.cols ∧
     (build_model_on mem p).noise_matrix.rows = (build_model_on mem2 q).noise_matrix.rows ∧
     (build_model_on mem p).noise_matrix.cols = (build_model_on mem2 q).noise_matrix.cols ∧
     (build_model_on mem p).input_matrix.rows = (build_model_on mem2 q).input_matrix.rows ∧
     (build_model_on mem p).input_matrix.cols = (build_model_on mem2 q).input_matrix.cols) ∧
    (∀ r c : Int, 0 ≤ r → r < (build_model_on mem p).dynamics_matrix.rows →
      0 ≤ c → c < (build_model_on mem p).dynamics_matrix.cols →
      (build_model_on mem p).dynamics_matrix.coeff r c =
        (build_model_on mem2 q).dynamics_matrix.coeff r c) ∧
    (∀ r c : Int, 0 ≤ r → r < (build_model_on mem p).noise_matrix.rows →
      0 ≤ c → c < (build_model_on mem p).noise_matrix.cols →
      (build_model_on mem p).noise_matrix.coeff r c =
        (build_model_on mem2 q).noise_matrix.coeff r c) ∧
    (∀ r c : Int, 0 ≤ r → r < (build_model_on mem p).input_matrix.rows →
      0 ≤ c → c < (build_model_on mem p).input_matrix.cols →
      (build_model_on mem p).input_matrix.coeff r c =
        (build_model_on mem2 q).input_matrix.coeff r c) := by
  have hpq : p = q := by
    cases p
    cases q
    simp only at h1 h2 h3 h4
    subst h1 h2 h3 h4
    rfl
  subst hpq
  obtain ⟨a1, a2, a3, a4, a5, a6⟩ := build_model_on_dims mem p
  obtain ⟨b1, b2, b3, b4, b5, b6⟩ := build_model_on_dims mem2 p
  refine ⟨rfl, ⟨by rw [a1, b1], by rw [a2, b2], by rw [a3, b3], by rw [a4, b4],
    by rw [a5, b5], by rw [a6, b6]⟩, ?_, ?_, ?_⟩
  · intro r c hr0 hr hc0 hc
    rw [a1] at hr
    rw [a2] at hc
    rw [build_model_on_A_coeff mem p r c hr0 hr hc0 hc,
      build_model_on_A_coeff mem2 p r c hr0 hr hc0 hc]
  · intro r c hr0 hr hc0 hc
    rw [a3] at hr
    rw [a4] at hc
    rw [build_model_on_B_coeff mem p r c hr0 hr hc0 hc,
      build_model_on_B_coeff mem2 p r c hr0 hr hc0 hc]
  · intro r c hr0 hr hc0 hc
    rw [a5] at hr
    rw [a6] at hc
    rw [build_model_on_C_coeff mem p r c hr0 hr hc0 hc,
      build_model_on_C_coeff mem2 p r c hr0 hr hc0 hc]

theorem build_model_deterministic_witness :
    (build_model_on
        (⟨fun _ _ => 7, fun _ _ => 7, fun _ _ => 7, fun _ _ => 7, fun _ _ => 7⟩ : Storage ℚ)
        (⟨1/10, 2/10, 9/10, 2⟩ : Parameters ℚ)).dynamics_matrix.coeff 13 19 =
      (build_model_on
        (⟨fun _ _ => 0, fun r _ => (r : ℚ), fun _ c => (c : ℚ), fun r c => (r : ℚ) + c,
          fun _ _ => 1⟩ : Storage ℚ)
        (⟨1/10, 2/10, 9/10, 2⟩ : Parameters ℚ)).dynamics_matrix.coeff 13 19 ∧
    (build_model_on
        (⟨fun _ _ => 7, fun _ _ => 7, fun _ _ => 7, fun _ _ => 7, fun _ _ => 7⟩ : Storage ℚ)
        (⟨1/10, 2/10, 9/10, 2⟩ : Parameters ℚ)).noise_matrix.coeff 20 7 =
      (build_model_on
        (⟨fun _ _ => 0, fun r _ => (r : ℚ), fun _ c => (c : ℚ), fun r c => (r : ℚ) + c,
          fun _ _ => 1⟩ : Storage ℚ)
        (⟨1/10, 2/10, 9/10, 2⟩ : Parameters ℚ)).noise_matrix.coeff 20 7 := by
  have h := build_model_deterministic
    (⟨fun _ _ => 7, fun _ _ => 7, fun _ _ => 7, fun _ _ => 7, fun _ _ => 7⟩ : Storage ℚ)
    (⟨fun _ _ => 0, fun r _ => (r : ℚ), fun _ c => (c : ℚ), fun r c => (r : ℚ) + c,
          fun _ _ => 1⟩ : Storage ℚ)
    (⟨1/10, 2/10, 9/10, 2⟩ : Parameters ℚ) (⟨1/10, 2/10, 9/10, 2⟩ : Parameters ℚ)
    rfl rfl rfl rfl
  exact ⟨h.2.2.1 13 19 (by decide) (by decide) (by decide) (by decide),
    h.2.2.2.1 20 7 (by decide) (by decide) (by decide) (by decide)⟩

/-- C14: for every `part_count >= 0` and every velocity factor, the matrices the code
assembles (`A` set to the identity, `B` and `C` set to zero, then one template per diagonal
block) have the shapes of, and the same entry at every index as, the matrices of the specified
algorithm (all three zero-filled, then one template per diagonal block). -/
theorem build_model_refines_spec (p : Parameters R) (_hn : 0 ≤ p.part_count) :
    ((build_model p).dynamics_matrix.rows = (spec_build p).dynamics_matrix.rows ∧
     (build_model p).dynamics_matrix.cols = (spec_build p).dynamics_matrix.cols ∧
     (build_model p).noise_matrix.rows = (spec_build p).noise_matrix.rows ∧
     (build_model p).noise_matrix.cols = (spec_build p).noise_matrix.cols ∧
     (build_model p).input_matrix.rows = (spec_build p).input_matrix.rows ∧
     (build_model p).input_matrix.cols = (spec_build p).input_matrix.cols) ∧
    (∀ r c : Int, 0 ≤ r → r < (build_model p).dynamics_matrix.rows →
      0 ≤ c → c < (build_model p).dynamics_matrix.cols →
      (build_model p).dynamics_matrix.coeff r c = (spec_build p).dynamics_matrix.coeff r c) ∧
    (∀ r c : Int, 0 ≤ r → r < (build_model p).noise_matrix.rows →
      0 ≤ c → c < (build_model p).noise_matrix.cols →
      (build_model p).noise_matrix.coeff r c = (spec_build p).noise_matrix.coeff r c) ∧
    (∀ r c : Int, 0 ≤ r → r < (build_model p).input_matrix.rows →
      0 ≤ c → c < (build_model p).input_matrix.cols →
      (build_model p).input_matrix.coeff r c = (spec_build p).input_matrix.coeff r c) := by
  obtain ⟨a1, a2, a3, a4, a5, a6⟩ := build_model_dims p
  obtain ⟨b1, b2, b3, b4, b5, b6⟩ := spec_build_dims p
  refine ⟨⟨by rw [a1, b1], by rw [a2, b2], by rw [a3, b3], by rw [a4, b4],
    by rw [a5, b5], by rw [a6, b6]⟩, ?_, ?_, ?_⟩
  · intro r c hr0 hr hc0 hc
    rw [a1] at hr
    rw [a2] at hc
    rw [← build_model_on_zero p, build_model_on_A_coeff _ p r c hr0 hr hc0 hc,
      spec_build_A_coeff p r c hr0 hr hc0 hc]
  · intro r c hr0 hr hc0 hc
    rw [a3] at hr
    rw [a4] at hc
    rw [← build_model_on_zero p, build_model_on_B_coeff _ p r c hr0 hr hc0 hc,
      spec_build_B_coeff p r c hr0 hr hc0 hc]
  · intro r c hr0 hr hc0 hc
    rw [a5] at hr
    rw [a6] at hc
    rw [← build_model_on_zero p, build_model_on_C_coeff _ p r c hr0 hr hc0 hc,
      spec_build_input]
    rfl

theorem build_model_refines_spec_witness :
    (0 : Int) ≤ (⟨1/10, 2/10, 9/10, 2⟩ : Parameters ℚ).part_count ∧
    (build_model (⟨1/10, 2/10, 9/10, 2⟩ : Parameters ℚ)).dynamics_matrix.coeff 14 14 =
      (spec_build (⟨1/10, 2/10, 9/10, 2⟩ : Parameters ℚ)).dynamics_matrix.coeff 14 14 ∧
    (build_model (⟨1/10, 2/10, 9/10, 2⟩ : Parameters ℚ)).dynamics_matrix.coeff 3 14 =
      (spec_build (⟨1/10, 2/10, 9/10, 2⟩ : Parameters ℚ)).dynamics_matrix.coeff 3 14 ∧
    (build_model (⟨1/10, 2/10, 9/10, 2⟩ : Parameters ℚ)).noise_matrix.coeff 21 9 =
      (spec_build (⟨1/10, 2/10, 9/10, 2⟩ : Parameters ℚ)).noise_matrix.coeff 21 9 := by
  have h := build_model_refines_spec (⟨1/10, 2/10, 9/10, 2⟩ : Parameters ℚ) (by decide)
  exact ⟨by decide, h.2.1 14 14 (by decide) (by decide) (by decide) (by decide),
    h.2.1 3 14 (by decide) (by decide) (by decide) (by decide),
    h.2.2.1 21 9 (by decide) (by decide) (by decide) (by decide)⟩

/-- C15: coupled noise. For every `part_count >= 1`, noise vector `w` of length `6 n`, body
`i` and `k < 6`, the noise contribution `(B w)[12 i + k]` to the pose equals the contribution
`(B w)[12 i + 6 + k]` to the velocity, and both are `s_k * w[6 i + k]` with `s_k` the linear
sigma for `k < 3` and the angular sigma otherwise. -/
theorem coupled_noise (p : Parameters R) (_hn : 1 ≤ p.part_count) (w : Mat R)
    (_hw : w.rows = 6 * p.part_count) (_hw1 : w.cols = 1) (i k : Nat)
    (hi : (i : Int) < p.part_count) (hk : k < 6) :
    ((build_model p).noise_matrix.mul w).coeff (12 * (i : Int) + k) 0 =
      ((build_model p).noise_matrix.mul w).coeff (12 * (i : Int) + 6 + k) 0 ∧
    ((build_model p).noise_matrix.mul w).coeff (12 * (i : Int) + k) 0 =
      (if k < 3 then p.linear_sigma else p.angular_sigma) * w.coeff (6 * (i : Int) + k) 0 ∧
    ((build_model p).noise_matrix.mul w).coeff (12 * (i : Int) + 6 + k) 0 =
      (if k < 3 then p.linear_sigma else p.angular_sigma) * w.coeff (6 * (i : Int) + k) 0 := by
  have e1 : 12 * (i : Int) + k = ((12 * i + k : Nat) : Int) := by push_cast; ring
  have e2 : 12 * (i : Int) + 6 + k = ((12 * i + (k + 6) : Nat) : Int) := by push_cast; ring
  have e3 : 6 * (i : Int) + k = ((6 * i + k : Nat) : Int) := by push_cast; ring
  have m1 := mul_noise_row p i k hi (by omega) w 0
  have m2 := mul_noise_row p i (k + 6) hi (by omega) w 0
  have k1 : k % 6 = k := Nat.mod_eq_of_lt hk
  have k2 : (k + 6) % 6 = k := by omega
  rw [k1] at m1
  rw [k2] at m2
  rw [e1, e2, e3, m1, m2]
  exact ⟨rfl, rfl, rfl⟩

theorem coupled_noise_witness :
    (1 : Int) ≤ (⟨1/10, 1/5, 9/10, 2⟩ : Parameters ℚ).part_count ∧
    ((1 : Nat) : Int) < (⟨1/10, 1/5, 9/10, 2⟩ : Parameters ℚ).part_count ∧
    ((build_model (⟨1/10, 1/5, 9/10, 2⟩ : Parameters ℚ)).noise_matrix.mul
        ⟨12, 1, fun r _ => (r : ℚ)⟩).coeff 16 0 =
      ((build_model (⟨1/10, 1/5, 9/10, 2⟩ : Parameters ℚ)).noise_matrix.mul
        ⟨12, 1, fun r _ => (r : ℚ)⟩).coeff 22 0 ∧
    ((build_model (⟨1/10, 1/5, 9/10, 2⟩ : Parameters ℚ)).noise_matrix.mul
        ⟨12, 1, fun r _ => (r : ℚ)⟩).coeff 22 0 = 2 := by
  have h := coupled_noise (⟨1/10, 1/5, 9/10, 2⟩ : Parameters ℚ) (by decide)
    ⟨12, 1, fun r _ => (r : ℚ)⟩ rfl rfl 1 4 (by decide) (by decide)
  refine ⟨by decide, by decide, ?_, ?_⟩
  · have h1 := h.1
    norm_num at h1
    exact h1
  · have h3 := h.2.2
    norm_num at h3
    exact h3

/-- C16: geometric damping. For every `part_count >= 1`, initial state `x`, step count `t`,
body `i` and `k < 6`, after `t` noise-free transitions `x -> A x` the velocity component
`12 i + 6 + k` is `velocity_factor ^ t` times its initial value, and the pose component
`12 i + k` is its initial value plus
`(velocity_factor ^ 1 + ... + velocity_factor ^ t)` times the initial velocity component. -/
theorem geometric_damping (p : Parameters R) (_hn : 1 ≤ p.part_count) (x : Mat R)
    (_hx : x.rows = 12 * p.part_count) (_hx1 : x.cols = 1) (t i k : Nat)
    (hi : (i : Int) < p.part_count) (hk : k < 6) :
    (noise_free_steps (build_model p) t x).coeff (12 * (i : Int) + 6 + k) 0 =
      p.velocity_factor ^ t * x.coeff (12 * (i : Int) + 6 + k) 0 ∧
    (noise_free_steps (build_model p) t x).coeff (12 * (i : Int) + k) 0 =
      x.coeff (12 * (i : Int) + k) 0
        + (Finset.sum (Finset.range t) fun s => p.velocity_factor ^ (s + 1))
          * x.coeff (12 * (i : Int) + 6 + k) 0 := by
  have e1 : 12 * (i : Int) + k = ((12 * i + k : Nat) : Int) := by push_cast; ring
  have e2 : 12 * (i : Int) + 6 + k = ((12 * i + k + 6 : Nat) : Int) := by push_cast; ring
  rw [e1, e2]
  induction t with
  | zero =>
    simp [noise_free_steps]
  | succ t ih =>
    obtain ⟨ihv, ihp⟩ := ih
    rw [noise_free_steps_succ]
    rw [mul_dynamics_velocity_row p i k hi hk, mul_dynamics_pose_row p i k hi hk, ihv, ihp,
      Finset.sum_range_succ]
    constructor
    · ring
    · ring

theorem geometric_damping_witness :
    (1 : Int) ≤ (⟨1/10, 2/10, 1/2, 1⟩ : Parameters ℚ).part_count ∧
    ((0 : Nat) : Int) < (⟨1/10, 2/10, 1/2, 1⟩ : Parameters ℚ).part_count ∧
    (noise_free_steps (build_model (⟨1/10, 2/10, 1/2, 1⟩ : Parameters ℚ)) 3
        ⟨12, 1, fun r _ => if r < 6 then 0 else 8⟩).coeff 6 0 = 1 ∧
    (noise_free_steps (build_model (⟨1/10, 2/10, 1/2, 1⟩ : Parameters ℚ)) 3
        ⟨12, 1, fun r _ => if r < 6 then 0 else 8⟩).coeff 0 0 = 7 := by
  have h := geometric_damping (⟨1/10, 2/10, 1/2, 1⟩ : Parameters ℚ) (by decide)
    ⟨12, 1, fun r _ => if r < 6 then 0 else 8⟩ rfl rfl 3 0 0 (by decide) (by decide)
  refine ⟨by decide, by decide, ?_, ?_⟩
  · have h1 := h.1
    norm_num [Finset.sum_range_succ] at h1
    exact h1
  · have h2 := h.2
    norm_num [Finset.sum_range_succ] at h2
    exact h2

/-- C17: cross-body independence. For every `part_count >= 1` and body `i`, two pairs of a
state and a noise vector that agree on the 12 state entries and the 6 noise entries of body
`i` give transitions `A x + B w` that agree on the 12 entries of body `i`, whatever the
entries of the other bodies are. -/
theorem cross_body_independence (p : Parameters R) (_hn : 1 ≤ p.part_count) (i : Nat)
    (hi : (i : Int) < p.part_count) (x x2 w w2 : Mat R)
    (hx : ∀ r : Nat, r < 12 →
      x.coeff (12 * (i : Int) + r) 0 = x2.coeff (12 * (i : Int) + r) 0)
    (hw : ∀ k : Nat, k < 6 →
      w.coeff (6 * (i : Int) + k) 0 = w2.coeff (6 * (i : Int) + k) 0) :
    ∀ r : Nat, r < 12 →
      (((build_model p).dynamics_matrix.mul x).add
          ((build_model p).noise_matrix.mul w)).coeff (12 * (i : Int) + r) 0 =
        (((build_model p).dynamics_matrix.mul x2).add
          ((build_model p).noise_matrix.mul w2)).coeff (12 * (i : Int) + r) 0 := by
  intro r hr
  have hx2 : ∀ r : Nat, r < 12 →
      x.coeff ((12 * i + r : Nat) : Int) 0 = x2.coeff ((12 * i + r : Nat) : Int) 0 := by
    intro r hr
    have := hx r hr
    have e : 12 * (i : Int) + r = ((12 * i + r : Nat) : Int) := by push_cast; ring
    rwa [e] at this
  have hw2 : ∀ k : Nat, k < 6 →
      w.coeff ((6 * i + k : Nat) : Int) 0 = w2.coeff ((6 * i + k : Nat) : Int) 0 := by
    intro k hk
    have := hw k hk
    have e : 6 * (i : Int) + k = ((6 * i + k : Nat) : Int) := by push_cast; ring
    rwa [e] at this
  have e1 : 12 * (i : Int) + r = ((12 * i + r : Nat) : Int) := by push_cast; ring
  simp only [Mat.add]
  rw [e1, mul_noise_row p i r hi hr w 0, mul_noise_row p i r hi hr w2 0,
    hw2 (r % 6) (by omega)]
  congr 1
  by_cases h6 : r < 6
  · rw [mul_dynamics_pose_row p i r hi h6 x 0, mul_dynamics_pose_row p i r hi h6 x2 0,
      hx2 r hr]
    have := hx2 (r + 6) (by omega)
    rw [show 12 * i + (r + 6) = 12 * i + r + 6 from by omega] at this
    rw [this]
  · obtain ⟨k, rfl⟩ : ∃ k, r = k + 6 := ⟨r - 6, by omega⟩
    rw [show 12 * i + (k + 6) = 12 * i + k + 6 from by omega,
      mul_dynamics_velocity_row p i k hi (by omega) x 0,
      mul_dynamics_velocity_row p i k hi (by omega) x2 0]
    have := hx2 (k + 6) (by omega)
    rw [show 12 * i + (k + 6) = 12 * i + k + 6 from by omega] at this
    rw [this]

theorem cross_body_independence_witness :
    (1 : Int) ≤ (⟨1/10, 1/5, 9/10, 2⟩ : Parameters ℚ).part_count ∧
    ((0 : Nat) : Int) < (⟨1/10, 1/5, 9/10, 2⟩ : Parameters ℚ).part_count ∧
    (((build_model (⟨1/10, 1/5, 9/10, 2⟩ : Parameters ℚ)).dynamics_matrix.mul
          ⟨24, 1, fun r _ => (r : ℚ)⟩).add
        ((build_model (⟨1/10, 1/5, 9/10, 2⟩ : Parameters ℚ)).noise_matrix.mul
          ⟨12, 1, fun r _ => (r : ℚ)⟩)).coeff 3 0 =
      (((build_model (⟨1/10, 1/5, 9/10, 2⟩ : Parameters ℚ)).dynamics_matrix.mul
          ⟨24, 1, fun r _ => if r < 12 then (r : ℚ) else 100⟩).add
        ((build_model (⟨1/10, 1/5, 9/10, 2⟩ : Parameters ℚ)).noise_matrix.mul
          ⟨12, 1, fun r _ => if r < 6 then (r : ℚ) else -5⟩)).coeff 3 0 := by
  have h := cross_body_independence (⟨1/10, 1/5, 9/10, 2⟩ : Parameters ℚ) (by decide) 0
    (by decide)
    ⟨24, 1, fun r _ => (r : ℚ)⟩ ⟨24, 1, fun r _ => if r < 12 then (r : ℚ) else 100⟩
    ⟨12, 1, fun r _ => (r : ℚ)⟩ ⟨12, 1, fun r _ => if r < 6 then (r : ℚ) else -5⟩
    (by
      intro r hr
      have hlt : 12 * ((0 : Nat) : Int) + (r : Int) < 12 := by omega
      simp only [if_pos hlt])
    (by
      intro k hk
      have hlt : 6 * ((0 : Nat) : Int) + (k : Int) < 6 := by omega
      simp only [if_pos hlt])
    3 (by decide)
  refine ⟨by decide, by decide, ?_⟩
  simpa using h

/-- C18: the compile-time and the run-time layouts agree. For every `part_count >= 0`, a
state type of fixed size `12 n` has `NoiseDim = 6 n`, which is the `total_noise_dim` that
`build_model` computes and the number of columns of the noise matrix; for an odd fixed size
`S` the trait gives `2 * NoiseDim = S - 1`, not `S`. -/
theorem NoiseDim_matches_build_model (p : Parameters R) (hn : 0 ≤ p.part_count) (S : Nat)
    (hS : S % 2 = 1) :
    NoiseDim (12 * p.part_count) = total_noise_dim p ∧
    NoiseDim (12 * p.part_count) = 6 * p.part_count ∧
    NoiseDim (12 * p.part_count) = (build_model p).noise_matrix.cols ∧
    2 * NoiseDim (S : Int) = (S : Int) - 1 ∧
    2 * NoiseDim (S : Int) ≠ (S : Int) := by
  obtain ⟨_, _, _, hBc, _, _⟩ := build_model_dims p
  have h12 : NoiseDim (12 * p.part_count) = 6 * p.part_count := by
    have hne : ¬ (12 * p.part_count = -1) := by omega
    simp only [NoiseDim, ne_eq, hne, not_false_eq_true, if_true]
    rw [Int.tdiv_eq_ediv (by omega) (by omega)]
    omega
  have hSd : NoiseDim (S : Int) = ((S / 2 : Nat) : Int) := by
    have hne : ¬ ((S : Int) = -1) := by omega
    simp only [NoiseDim, ne_eq, hne, not_false_eq_true, if_true]
    rw [Int.tdiv_eq_ediv (by omega) (by omega)]
    omega
  refine ⟨?_, h12, ?_, ?_, ?_⟩
  · rw [h12, total_noise_dim_eq]
    ring
  · rw [h12, hBc]
  · rw [hSd]
    omega
  · rw [hSd]
    omega

theorem NoiseDim_matches_build_model_witness :
    (0 : Int) ≤ (⟨1/10, 2/10, 9/10, 3⟩ : Parameters ℚ).part_count ∧
    7 % 2 = 1 ∧
    NoiseDim 36 = total_noise_dim (⟨1/10, 2/10, 9/10, 3⟩ : Parameters ℚ) ∧
    NoiseDim 36 = 18 ∧
    NoiseDim 36 = (build_model (⟨1/10, 2/10, 9/10, 3⟩ : Parameters ℚ)).noise_matrix.cols ∧
    2 * NoiseDim 7 = 6 ∧
    2 * NoiseDim 7 ≠ 7 := by
  have h := NoiseDim_matches_build_model (⟨1/10, 2/10, 9/10, 3⟩ : Parameters ℚ) (by decide) 7
    (by decide)
  exact ⟨by decide, by decide, h.1, h.2.1, h.2.2.1, h.2.2.2.1, h.2.2.2.2⟩

end Properties

/-! ## The concrete case of the specification

`part_count = 1`, `linear_sigma = 0.1`, `angular_sigma = 0.2`, `velocity_factor = 0.9`. -/

section Example

/-- Dynamics matrix of the concrete case: `A[0..6, 0..6] = I`, `A[0..6, 6..12] = 0.9 I`,
`A[6..12, 6..12] = 0.9 I` and `A[6..12, 0..6] = 0`. -/
theorem concrete_case_dynamics (r c : Nat) (hr : r < 6) (hc : c < 6) :
    (build_model (⟨1/10, 2/10, 9/10, 1⟩ : Parameters ℚ)).dynamics_matrix.coeff r c =
      (if r = c then 1 else 0) ∧
    (build_model (⟨1/10, 2/10, 9/10, 1⟩ : Parameters ℚ)).dynamics_matrix.coeff r
      ((c + 6 : Nat) : Int) = (if r = c then 9/10 else 0) ∧
    (build_model (⟨1/10, 2/10, 9/10, 1⟩ : Parameters ℚ)).dynamics_matrix.coeff
      ((r + 6 : Nat) : Int) ((c + 6 : Nat) : Int) = (if r = c then 9/10 else 0) ∧
    (build_model (⟨1/10, 2/10, 9/10, 1⟩ : Parameters ℚ)).dynamics_matrix.coeff
      ((r + 6 : Nat) : Int) c = 0 := by
  have h1 := build_model_A_entry (⟨1/10, 2/10, 9/10, 1⟩ : Parameters ℚ) 0 0 r c
    (by decide) (by decide) (by omega) (by omega)
  have h2 := build_model_A_entry (⟨1/10, 2/10, 9/10, 1⟩ : Parameters ℚ) 0 0 r (c + 6)
    (by decide) (by decide) (by omega) (by omega)
  have h3 := build_model_A_entry (⟨1/10, 2/10, 9/10, 1⟩ : Parameters ℚ) 0 0 (r + 6) (c + 6)
    (by decide) (by decide) (by omega) (by omega)
  have h4 := build_model_A_entry (⟨1/10, 2/10, 9/10, 1⟩ : Parameters ℚ) 0 0 (r + 6) c
    (by decide) (by decide) (by omega) (by omega)
  simp only [Nat.cast_zero, mul_zero, zero_add, if_true] at h1 h2 h3 h4
  refine ⟨?_, ?_, ?_, ?_⟩
  · rw [h1]; split_ifs <;> first | rfl | omega
  · rw [h2]; split_ifs <;> first | rfl | omega
  · rw [h3]; split_ifs <;> first | rfl | omega
  · rw [h4]; split_ifs <;> first | rfl | omega

/-- Noise matrix of the concrete case: `B[0..3, 0..3] = 0.1 I`, `B[3..6, 3..6] = 0.2 I`,
`B[6..9, 0..3] = 0.1 I`, `B[9..12, 3..6] = 0.2 I`, and every other entry is zero. -/
theorem concrete_case_noise (r c : Nat) (hr : r < 12) (hc : c < 6) :
    (build_model (⟨1/10, 2/10, 9/10, 1⟩ : Parameters ℚ)).noise_matrix.coeff r c =
      if r = c ∨ r = c + 6 then (if c < 3 then 1/10 else 2/10) else 0 := by
  have h1 := build_model_B_entry (⟨1/10, 2/10, 9/10, 1⟩ : Parameters ℚ) 0 0 r c
    (by decide) (by decide) hr hc
  simp only [Nat.cast_zero, mul_zero, zero_add, if_true] at h1
  exact h1

end Example

end dbot
